import Mathlib

/-!
Verification development for the `almostnode` Next.js-compatible in-browser
dev server (`src/frameworks/next-dev-server.ts`).

The TypeScript source is shallowly embedded: strings are modelled as
`List Char` (`Str`), the consumed virtual filesystem as a finite list of
(path, content) pairs, and the stateful transform cache by explicit state
passing.  Effectful collaborators that execute user JavaScript (esbuild,
`new Function` module evaluation) and large static string constants (shim
sources, HTML template text) are abstracted as fields of a `ServerEnv`
record; everything that the claims speak about — routing, prefix
stripping, caching, response construction, callback ordering — is
translated directly from the source.
-/

namespace NDS

/-- Strings are modelled as lists of characters, which keeps every string
operation of the source structurally recursive and kernel-evaluable. -/
abbrev Str := List Char

/-- Coerce a Lean string literal to the `Str` model. -/
def strOf (s : String) : Str := s.data

/-- The character `{` (kept out of string literals). -/
def lbrace : Char := Char.ofNat 123

/-- The character `}` (kept out of string literals). -/
def rbrace : Char := Char.ofNat 125

/-- JavaScript `String.prototype.split(c)` (keeping empty pieces). -/
def splitOnChar (c : Char) : Str → List Str
  | [] => [[]]
  | a :: rest =>
    let r := splitOnChar c rest
    if a = c then [] :: r
    else
      match r with
      | [] => [[a]]
      | h :: t => (a :: h) :: t

/-- The source's `pathname.split('/').filter(Boolean)`. -/
def segmentsOf (p : Str) : List Str :=
  (splitOnChar '/' p).filter (fun s => !s.isEmpty)

/-- JavaScript `String.prototype.replace` with a plain-string pattern:
replaces the first occurrence only. -/
def replaceFirst (pat rep : Str) : Str → Str
  | [] => if pat.isEmpty then rep else []
  | a :: rest =>
    if pat.isPrefixOf (a :: rest) then rep ++ (a :: rest).drop pat.length
    else a :: replaceFirst pat rep rest

/-- JavaScript `String.prototype.toUpperCase` (the source only applies it to
ASCII HTTP method names). -/
def toUpperStr (s : Str) : Str := s.map Char.toUpper

/-- JavaScript `String.prototype.toLowerCase` (ASCII use only). -/
def toLowerStr (s : Str) : Str := s.map Char.toLower

/-- A `\w` character of a JavaScript regex: `[A-Za-z0-9_]`. -/
def isWordChar (c : Char) : Bool := c.isAlphanum || c = '_'

/-- The test `/\.\w+$/.test(pathname)` from `resolveFileWithExtension`. -/
def hasDotExt (s : Str) : Bool :=
  let r := s.reverse
  let w := r.takeWhile isWordChar
  !w.isEmpty && ((r.drop w.length).head? == some '.')

/-- The route-group test `/^\([^)]+\)$/.test(entry)`. -/
def matchesRouteGroup : Str → Bool
  | '(' :: rest =>
    (rest.getLast? == some ')') && !rest.dropLast.isEmpty &&
      !rest.dropLast.contains ')'
  | _ => false

/-- The dynamic-file test `/^\[([^\]]+)\]$/.test(name)` of the pages-router
resolver. -/
def matchesDynamicFile : Str → Bool
  | '[' :: rest =>
    (rest.getLast? == some ']') && !rest.dropLast.isEmpty &&
      !rest.dropLast.contains ']'
  | _ => false

/-- Decimal rendering of a natural number (JS template `${n}` for a
non-negative integer). -/
def natToStr (n : Nat) : Str := (Nat.repr n).data

/-- Byte length of a character under UTF-8 (used for `Buffer.length`). -/
def utf8CharBytes (c : Char) : Nat :=
  if c.val < 0x80 then 1
  else if c.val < 0x800 then 2
  else if c.val < 0x10000 then 3
  else 4

/-- `Buffer.from(s).length`: the UTF-8 byte length of a string. -/
def utf8Len (s : Str) : Nat := s.foldl (fun n c => n + utf8CharBytes c) 0

/-- Update-or-append on an insertion-ordered association list: the semantics
of `obj[k] = v` on a JavaScript object (an existing key keeps its position,
a fresh key is appended). -/
def assocSet {α : Type} (ps : List (Str × α)) (k : Str) (v : α) :
    List (Str × α) :=
  match ps with
  | [] => [(k, v)]
  | (k0, v0) :: rest =>
    if k0 == k then (k0, v) :: rest else (k0, v0) :: assocSet rest k v

/-- Lookup on a JavaScript-object association list. -/
def assocGet {α : Type} (ps : List (Str × α)) (k : Str) : Option α :=
  match ps with
  | [] => none
  | (k0, v0) :: rest => if k0 == k then some v0 else assocGet rest k

/-! ## The consumed virtual filesystem (spec §6)

The dev server consumes only `existsSync`, `isDirectorySync`,
`readdirSync`, `readFileSync` (and `watch`, not needed by any claim).  The
`VirtualFS` implementation itself is outside the embedded core; it is
modelled as a finite map from absolute paths to file contents, with
directories implied by the files inside them. -/

structure VFS where
  files : List (Str × Str)

/-- `readFileSync` as a partial lookup (the source wraps calls in
`try`/`catch`; a `none` result models the thrown `ENOENT`). -/
def VFS.readFileSync? (v : VFS) (p : Str) : Option Str :=
  (v.files.find? (fun f => f.1 == p)).map (fun f => f.2)

/-- Whether `p` names a file. -/
def VFS.isFile (v : VFS) (p : Str) : Bool := (v.readFileSync? p).isSome

/-- `isDirectorySync`: some file lives strictly below `p`. -/
def VFS.isDirectorySync (v : VFS) (p : Str) : Bool :=
  v.files.any (fun f => (p ++ ['/']).isPrefixOf f.1)

/-- `existsSync`: a file or a (non-empty) directory. -/
def VFS.existsSync (v : VFS) (p : Str) : Bool :=
  v.isFile p || v.isDirectorySync p

/-- Order-preserving deduplication (used by `readdirSync`). -/
def dedupStr (l : List Str) : List Str :=
  l.foldl (fun acc x => if acc.contains x then acc else acc ++ [x]) []

/-- `readdirSync p`: the immediate child names below directory `p`, in
file-table order.  (On a missing directory the source always guards the
call with `try`/`catch` and ignores the error, which coincides with the
empty result here.) -/
def VFS.readdirSync (v : VFS) (p : Str) : List Str :=
  dedupStr (v.files.filterMap (fun f =>
    if (p ++ ['/']).isPrefixOf f.1 then
      some ((f.1.drop (p.length + 1)).takeWhile (fun c => c ≠ '/'))
    else none))

/-! ## Route resolution data model -/

/-- A dynamic-route parameter value: a single segment binds a string, a
catch-all binds the remaining segments as a sequence. -/
inductive PVal where
  | s (v : Str)
  | arr (vs : List Str)
deriving DecidableEq, Repr

/-- Resolved App Router route (interface `AppRoute` of the source). -/
structure AppRoute where
  page : Str
  layouts : List Str
  params : List (Str × PVal)
  loading : Option Str
  error : Option Str
  notFound : Option Str
deriving DecidableEq, Repr

/-- Extension preference order of the app/pages resolvers
(`['.jsx', '.tsx', '.js', '.ts']`). -/
def pageExts : List Str :=
  [strOf ".jsx", strOf ".tsx", strOf ".js", strOf ".ts"]

/-- `collectLayout` of `resolveAppDynamicRoute`: append the first
`layout.<ext>` found in `dirPath` that is not already collected. -/
def collectLayout (v : VFS) (dirPath : Str) (layouts : List Str) :
    List Str :=
  go pageExts
where
  go : List Str → List Str
    | [] => layouts
    | ext :: rest =>
      let layoutPath := dirPath ++ strOf "/layout" ++ ext
      if v.existsSync layoutPath && !layouts.contains layoutPath then
        layouts ++ [layoutPath]
      else go rest

/-- `findPage`: first `page.<ext>` in a directory. -/
def findPage (v : VFS) (dirPath : Str) : Option Str :=
  pageExts.findSome? (fun ext =>
    let pagePath := dirPath ++ strOf "/page" ++ ext
    if v.existsSync pagePath then some pagePath else none)

/-- `findConventionFile`: first `<name>.<ext>` in a directory. -/
def findConventionFile (v : VFS) (dirPath : Str) (name : Str) :
    Option Str :=
  pageExts.findSome? (fun ext =>
    let filePath := dirPath ++ ['/'] ++ name ++ ext
    if v.existsSync filePath then some filePath else none)

/-- The `current.replace(/\/[^/]+$/, '')` step of the upward walk. -/
def parentDir (p : Str) : Str :=
  let r := p.reverse
  let seg := r.takeWhile (fun c => c ≠ '/')
  if !seg.isEmpty && ((r.drop seg.length).head? == some '/') then
    (r.drop (seg.length + 1)).reverse
  else p

/-- `findNearestConventionFile`: walk up from `dirPath` towards the app
root looking for the nearest `<name>.<ext>`.  The walk shortens the path
on every step; a character-count fuel bounds it. -/
def findNearestConventionFile (v : VFS) (appDir dirPath name : Str) :
    Option Str :=
  go (dirPath.length + 1) dirPath
where
  go : Nat → Str → Option Str
    | 0, _ => none
    | fuel + 1, current =>
      if appDir.isPrefixOf current then
        match findConventionFile v current name with
        | some file => some file
        | none =>
          let parent := parentDir current
          if parent == current then none else go fuel parent
      else none

/-- `getRouteGroups`: child directories whose name matches `(name)`. -/
def getRouteGroups (v : VFS) (dirPath : Str) : List Str :=
  (v.readdirSync dirPath).filter (fun e =>
    matchesRouteGroup e && v.isDirectorySync (dirPath ++ ['/'] ++ e))

/-- Build the `AppRoute` result once a page has been found
(the object literal of `resolveAppDynamicRoute`). -/
def mkAppRoute (v : VFS) (appDir page : Str) (layouts : List Str)
    (params : List (Str × PVal)) (convDir : Str) : AppRoute :=
  { page := page, layouts := layouts, params := params,
    loading := findNearestConventionFile v appDir convDir (strOf "loading"),
    error := findNearestConventionFile v appDir convDir (strOf "error"),
    notFound :=
      findNearestConventionFile v appDir convDir (strOf "not-found") }

/-- The recursive `tryPath` of `resolveAppDynamicRoute`, translated branch
by branch.  The recursion of the source terminates because every recursive
call moves `dirPath` one directory deeper inside a finite tree (route
groups re-try the same segment one level down); here that argument is made
by an explicit fuel, instantiated in `resolveAppDynamicRoute` with a bound
that exceeds any reachable depth. -/
def tryAppPath (v : VFS) (appDir : Str) :
    Nat → Str → List Str → List Str → List (Str × PVal) → Option AppRoute
  | 0, _, _, _, _ => none
  | fuel + 1, dirPath, remaining, layouts0, params =>
    let layouts := collectLayout v dirPath layouts0
    match remaining with
    | [] =>
      match findPage v dirPath with
      | some page => some (mkAppRoute v appDir page layouts params dirPath)
      | none =>
        (getRouteGroups v dirPath).findSome? (fun group =>
          let groupPath := dirPath ++ ['/'] ++ group
          let groupLayouts := collectLayout v groupPath layouts
          match findPage v groupPath with
          | some page =>
            some (mkAppRoute v appDir page groupLayouts params groupPath)
          | none => none)
    | current :: rest =>
      let exactPath := dirPath ++ ['/'] ++ current
      match
        (if v.isDirectorySync exactPath then
          tryAppPath v appDir fuel exactPath rest layouts params
        else none) with
      | some r => some r
      | none =>
        match
          (getRouteGroups v dirPath).findSome? (fun group =>
            let groupPath := dirPath ++ ['/'] ++ group
            let groupLayouts := collectLayout v groupPath layouts
            let groupExactPath := groupPath ++ ['/'] ++ current
            match
              (if v.isDirectorySync groupExactPath then
                tryAppPath v appDir fuel groupExactPath rest groupLayouts
                  params
              else none) with
            | some r => some r
            | none =>
              (v.readdirSync groupPath).findSome? (fun entry =>
                if (strOf "[...").isPrefixOf entry &&
                    (strOf "]").isSuffixOf entry then
                  let dynamicPath := groupPath ++ ['/'] ++ entry
                  if v.isDirectorySync dynamicPath then
                    let paramName := (entry.drop 4).dropLast
                    tryAppPath v appDir fuel dynamicPath [] groupLayouts
                      (assocSet params paramName (.arr (current :: rest)))
                  else none
                else if (strOf "[[...").isPrefixOf entry &&
                    (strOf "]]").isSuffixOf entry then
                  let dynamicPath := groupPath ++ ['/'] ++ entry
                  if v.isDirectorySync dynamicPath then
                    let paramName := (entry.drop 5).dropLast.dropLast
                    tryAppPath v appDir fuel dynamicPath [] groupLayouts
                      (assocSet params paramName (.arr (current :: rest)))
                  else none
                else if (strOf "[").isPrefixOf entry &&
                    (strOf "]").isSuffixOf entry && !entry.contains '.' then
                  let dynamicPath := groupPath ++ ['/'] ++ entry
                  if v.isDirectorySync dynamicPath then
                    let paramName := (entry.drop 1).dropLast
                    tryAppPath v appDir fuel dynamicPath rest groupLayouts
                      (assocSet params paramName (.s current))
                  else none
                else none)) with
        | some r => some r
        | none =>
          (v.readdirSync dirPath).findSome? (fun entry =>
            if (strOf "[...").isPrefixOf entry &&
                (strOf "]").isSuffixOf entry then
              let dynamicPath := dirPath ++ ['/'] ++ entry
              if v.isDirectorySync dynamicPath then
                let paramName := (entry.drop 4).dropLast
                tryAppPath v appDir fuel dynamicPath [] layouts
                  (assocSet params paramName (.arr (current :: rest)))
              else none
            else if (strOf "[[...").isPrefixOf entry &&
                (strOf "]]").isSuffixOf entry then
              let dynamicPath := dirPath ++ ['/'] ++ entry
              if v.isDirectorySync dynamicPath then
                let paramName := (entry.drop 5).dropLast.dropLast
                tryAppPath v appDir fuel dynamicPath [] layouts
                  (assocSet params paramName (.arr (current :: rest)))
              else none
            else if (strOf "[").isPrefixOf entry &&
                (strOf "]").isSuffixOf entry && !entry.contains '.' then
              let dynamicPath := dirPath ++ ['/'] ++ entry
              if v.isDirectorySync dynamicPath then
                let paramName := (entry.drop 1).dropLast
                tryAppPath v appDir fuel dynamicPath rest layouts
                  (assocSet params paramName (.s current))
              else none
            else none)

/-- Fuel bound for the directory walks: every recursive call of the source
extends its directory path by at least one character while staying inside
the finite file tree, so the total character count of all paths plus the
segment count strictly exceeds any reachable recursion depth. -/
def fuelBound (v : VFS) (segments : List Str) : Nat :=
  v.files.foldl (fun n f => n + f.1.length) 0 + segments.length + 16

/-- `resolveAppDynamicRoute`: root-layout collection followed by the walk. -/
def resolveAppDynamicRoute (v : VFS) (appDir : Str) (segments : List Str) :
    Option AppRoute :=
  let rootLayouts :=
    match pageExts.findSome? (fun ext =>
      let rootLayout := appDir ++ strOf "/layout" ++ ext
      if v.existsSync rootLayout then some rootLayout else none) with
    | some rootLayout => [rootLayout]
    | none => []
  tryAppPath v appDir (fuelBound v segments) appDir segments rootLayouts []

/-- `resolveAppRoute`: split the pathname and run the unified resolver. -/
def resolveAppRoute (v : VFS) (appDir : Str) (pathname : Str) :
    Option AppRoute :=
  let segments := if pathname == strOf "/" then [] else segmentsOf pathname
  resolveAppDynamicRoute v appDir segments

/-! ## Pages Router resolution -/

/-- The recursive `tryPath` of `resolveDynamicRoute` (pages mode).  Its
recursion is structural on the remaining segments. -/
def tryPagesPath (v : VFS) : Str → List Str → Option Str
  | dirPath, [] =>
    pageExts.findSome? (fun ext =>
      let indexPath := dirPath ++ strOf "/index" ++ ext
      if v.existsSync indexPath then some indexPath else none)
  | dirPath, current :: rest =>
    let exactPath := dirPath ++ ['/'] ++ current
    match
      pageExts.findSome? (fun ext =>
        if rest.isEmpty && v.existsSync (exactPath ++ ext) then
          some (exactPath ++ ext)
        else none) with
    | some r => some r
    | none =>
      match
        (if v.isDirectorySync exactPath then tryPagesPath v exactPath rest
        else none) with
      | some r => some r
      | none =>
        (v.readdirSync dirPath).findSome? (fun entry =>
          match
            pageExts.findSome? (fun ext =>
              let nameWithoutExt := replaceFirst ext [] entry
              if ext.isSuffixOf entry && matchesDynamicFile nameWithoutExt &&
                  rest.isEmpty && v.existsSync (dirPath ++ ['/'] ++ entry)
              then some (dirPath ++ ['/'] ++ entry)
              else none) with
          | some r => some r
          | none =>
            match
              (if (strOf "[").isPrefixOf entry &&
                  (strOf "]").isSuffixOf entry && !entry.contains '.' &&
                  v.isDirectorySync (dirPath ++ ['/'] ++ entry) then
                tryPagesPath v (dirPath ++ ['/'] ++ entry) rest
              else none) with
            | some r => some r
            | none =>
              pageExts.findSome? (fun ext =>
                if (strOf "[...").isPrefixOf entry &&
                    ((strOf "]") ++ ext).isSuffixOf entry &&
                    v.existsSync (dirPath ++ ['/'] ++ entry) then
                  some (dirPath ++ ['/'] ++ entry)
                else none))

/-- `resolveDynamicRoute` (pages mode). -/
def resolveDynamicRoute (v : VFS) (pagesDir : Str) (pathname : Str) :
    Option Str :=
  let segments := segmentsOf pathname
  if segments.isEmpty then none else tryPagesPath v pagesDir segments

/-- `resolvePageFile`: exact match, then `index` file, then dynamic. -/
def resolvePageFile (v : VFS) (pagesDir : Str) (pathname : Str) :
    Option Str :=
  let pathname := if pathname == strOf "/" then strOf "/index" else pathname
  match
    pageExts.findSome? (fun ext =>
      let filePath := pagesDir ++ pathname ++ ext
      if v.existsSync filePath then some filePath else none) with
  | some r => some r
  | none =>
    match
      pageExts.findSome? (fun ext =>
        let filePath := pagesDir ++ pathname ++ strOf "/index" ++ ext
        if v.existsSync filePath then some filePath else none) with
    | some r => some r
    | none => resolveDynamicRoute v pagesDir pathname

/-! ## API route resolution -/

/-- Extension order used for API handlers (`['.js','.ts','.jsx','.tsx']`). -/
def apiExts : List Str :=
  [strOf ".js", strOf ".ts", strOf ".jsx", strOf ".tsx"]

/-- `resolveApiFile`: map `/api/...` into `<pagesDir>/api/...` and try the
extensions, then index files. -/
def resolveApiFile (v : VFS) (pagesDir : Str) (pathname : Str) :
    Option Str :=
  let apiPath :=
    if (strOf "/api").isPrefixOf pathname then
      pagesDir ++ strOf "/api" ++ pathname.drop 4
    else pathname
  match
    apiExts.findSome? (fun ext =>
      if v.existsSync (apiPath ++ ext) then some (apiPath ++ ext)
      else none) with
  | some r => some r
  | none =>
    apiExts.findSome? (fun ext =>
      let filePath := apiPath ++ strOf "/index" ++ ext
      if v.existsSync filePath then some filePath else none)

/-- Extension order of the app-route-handler resolver
(`['.ts','.js','.tsx','.jsx']`). -/
def routeExts : List Str :=
  [strOf ".ts", strOf ".js", strOf ".tsx", strOf ".jsx"]

/-- The recursive `tryPath` of `resolveAppRouteHandlerDynamic`; fuelled for
the same reason as `tryAppPath` (route groups re-try the same segment one
directory deeper). -/
def tryRoutePath (v : VFS) : Nat → Str → List Str → Option Str
  | 0, _, _ => none
  | _fuel + 1, dirPath, [] =>
    match
      routeExts.findSome? (fun ext =>
        let routePath := dirPath ++ strOf "/route" ++ ext
        if v.existsSync routePath then some routePath else none) with
    | some r => some r
    | none =>
      (v.readdirSync dirPath).findSome? (fun entry =>
        if matchesRouteGroup entry &&
            v.isDirectorySync (dirPath ++ ['/'] ++ entry) then
          routeExts.findSome? (fun ext =>
            let routePath := dirPath ++ ['/'] ++ entry ++ strOf "/route" ++ ext
            if v.existsSync routePath then some routePath else none)
        else none)
  | fuel + 1, dirPath, current :: rest =>
    let exactPath := dirPath ++ ['/'] ++ current
    match
      (if v.isDirectorySync exactPath then
        tryRoutePath v fuel exactPath rest
      else none) with
    | some r => some r
    | none =>
      (v.readdirSync dirPath).findSome? (fun entry =>
        match
          (if matchesRouteGroup entry &&
              v.isDirectorySync (dirPath ++ ['/'] ++ entry) then
            let groupExact := dirPath ++ ['/'] ++ entry ++ ['/'] ++ current
            if v.isDirectorySync groupExact then
              tryRoutePath v fuel groupExact rest
            else none
          else none) with
        | some r => some r
        | none =>
          match
            (if (strOf "[").isPrefixOf entry &&
                (strOf "]").isSuffixOf entry && !entry.contains '.' then
              let dynamicPath := dirPath ++ ['/'] ++ entry
              if v.isDirectorySync dynamicPath then
                tryRoutePath v fuel dynamicPath rest
              else none
            else none) with
          | some r => some r
          | none =>
            if (strOf "[...").isPrefixOf entry &&
                (strOf "]").isSuffixOf entry then
              let dynamicPath := dirPath ++ ['/'] ++ entry
              if v.isDirectorySync dynamicPath then
                tryRoutePath v fuel dynamicPath []
              else none
            else none)

/-- `resolveAppRouteHandlerDynamic`. -/
def resolveAppRouteHandlerDynamic (v : VFS) (appDir : Str)
    (segments : List Str) : Option Str :=
  tryRoutePath v (fuelBound v segments) appDir segments

/-- `resolveAppRouteHandler`: direct path first, then the dynamic walk. -/
def resolveAppRouteHandler (v : VFS) (appDir : Str) (pathname : Str) :
    Option Str :=
  let segments := if pathname == strOf "/" then [] else segmentsOf pathname
  let dirPath := segments.foldl (fun d s => d ++ ['/'] ++ s) appDir
  match
    routeExts.findSome? (fun ext =>
      let routePath := dirPath ++ strOf "/route" ++ ext
      if v.existsSync routePath then some routePath else none) with
  | some r => some r
  | none => resolveAppRouteHandlerDynamic v appDir segments

/-- `needsTransform`: the test `/\.(jsx|tsx|ts)$/.test(path)`. -/
def needsTransform (path : Str) : Bool :=
  (strOf ".jsx").isSuffixOf path || (strOf ".tsx").isSuffixOf path ||
    (strOf ".ts").isSuffixOf path

/-- Extension order of `resolveFileWithExtension`
(`['.tsx','.ts','.jsx','.js']`). -/
def resolveExts : List Str :=
  [strOf ".tsx", strOf ".ts", strOf ".jsx", strOf ".js"]

/-- `resolveFileWithExtension`: existing extension, added extensions, then
directory index files. -/
def resolveFileWithExtension (v : VFS) (pathname : Str) : Option Str :=
  if hasDotExt pathname && v.existsSync pathname then some pathname
  else
    match
      resolveExts.findSome? (fun ext =>
        if v.existsSync (pathname ++ ext) then some (pathname ++ ext)
        else none) with
    | some r => some r
    | none =>
      resolveExts.findSome? (fun ext =>
        let indexPath := pathname ++ strOf "/index" ++ ext
        if v.existsSync indexPath then some indexPath else none)

/-! ## Responses and JSON -/

/-- The `ResponseData` shape of the dispatcher (`statusCode`,
`statusMessage`, headers object, body bytes). -/
structure ResponseData where
  statusCode : Nat
  statusMessage : Str
  headers : List (Str × Str)
  body : Str
deriving DecidableEq, Repr

/-- JSON escaping of one character, following `JSON.stringify`. -/
def jsonEscapeChar (c : Char) : Str :=
  if c = '"' then ['\\', '"']
  else if c = '\\' then ['\\', '\\']
  else if c = '\n' then ['\\', 'n']
  else if c = '\r' then ['\\', 'r']
  else if c = '\t' then ['\\', 't']
  else if c.val = 8 then ['\\', 'b']
  else if c.val = 12 then ['\\', 'f']
  else if c.val < 32 then
    let lo := c.val.toNat % 16
    let hi := (c.val.toNat / 16) % 16
    ['\\', 'u', '0', '0',
      (if hi < 10 then Char.ofNat (48 + hi) else Char.ofNat (87 + hi)),
      (if lo < 10 then Char.ofNat (48 + lo) else Char.ofNat (87 + lo))]
  else [c]

/-- `JSON.stringify` of a string value. -/
def jsonStr (s : Str) : Str :=
  '"' :: s.foldr (fun c acc => jsonEscapeChar c ++ acc) ['"']

/-- `JSON.stringify` of a flat string-valued object (insertion order). -/
def jsonObj (kvs : List (Str × Str)) : Str :=
  [lbrace] ++
    (List.intercalate [','] (kvs.map (fun kv =>
      jsonStr kv.1 ++ [':'] ++ jsonStr kv.2))) ++ [rbrace]

/-- `JSON.stringify` of a param value (string or string sequence). -/
def jsonPVal : PVal → Str
  | .s v => jsonStr v
  | .arr vs => '[' :: (List.intercalate [','] (vs.map jsonStr)) ++ [']']

/-- `JSON.stringify` of a params object. -/
def jsonParams (ps : List (Str × PVal)) : Str :=
  [lbrace] ++
    (List.intercalate [','] (ps.map (fun kv =>
      jsonStr kv.1 ++ [':'] ++ jsonPVal kv.2))) ++ [rbrace]

/-- JSON rendering of a boolean. -/
def jsonBool (b : Bool) : Str := if b then strOf "true" else strOf "false"

/-! ## Transform cache -/

/-- Modelled from the spec: `simpleHash` (imported from `src/utils/hash`,
which is not among the provided sources) computes "a 32-bit fingerprint of
the source bytes"; it is modelled as the classic 31-based rolling hash
reduced mod 2^32 and rendered in decimal, matching the spec's
`TransformCacheEntry.sourceHash` description and the string-typed cache
field of the source. -/
def simpleHash (s : Str) : Str :=
  natToStr (s.foldl (fun h c => (h * 31 + c.toNat) % 4294967296) 0)

/-- The transform cache: `Map<filePath, { code, hash }>` as an
insertion-ordered association list. -/
abbrev TransformCache := List (Str × (Str × Str))

/-! ## Mock request / response machinery -/

/-- One call a user API handler can make on the mock `res` object.  `json`
and `send` carry the `JSON.stringify`d form of their argument; `send`'s
`isObj` flag records whether the argument was an object (in which case the
source delegates to `json`). -/
inductive ResCall where
  | status (code : Nat)
  | setHeaderC (name value : Str)
  | write (chunk : Str)
  | json (data : Str)
  | send (data : Str) (isObj : Bool)
  | endC (data : Option Str)
  | redirectNum (code : Nat) (url : Option Str)
  | redirectUrl (url : Str)
deriving DecidableEq, Repr

/-- State of the unary mock response (`createMockResponse`). -/
structure MRes where
  statusCode : Nat := 200
  statusMessage : Str := strOf "OK"
  headers : List (Str × Str) := []
  responseBody : Str := []
  ended : Bool := false
deriving Repr

/-- One step of the unary mock response, translated method by method from
`createMockResponse` (note: `json` and `send` replace the body and end the
response; `markEnded` only latches the flag). -/
def mresStep (st : MRes) : ResCall → MRes
  | .status code => { st with statusCode := code }
  | .setHeaderC name value =>
    { st with headers := assocSet st.headers name value }
  | .write chunk => { st with responseBody := st.responseBody ++ chunk }
  | .json data =>
    { st with
      headers := assocSet st.headers (strOf "Content-Type")
        (strOf "application/json; charset=utf-8"),
      responseBody := data, ended := true }
  | .send data isObj =>
    if isObj then
      { st with
        headers := assocSet st.headers (strOf "Content-Type")
          (strOf "application/json; charset=utf-8"),
        responseBody := data, ended := true }
    else { st with responseBody := data, ended := true }
  | .endC data =>
    { st with responseBody := st.responseBody ++ data.getD [], ended := true }
  | .redirectNum code url =>
    { st with
      statusCode := code,
      headers := assocSet st.headers (strOf "Location") (url.getD (strOf "/")),
      ended := true }
  | .redirectUrl url =>
    { st with
      statusCode := 307,
      headers := assocSet st.headers (strOf "Location") url,
      ended := true }

/-- Run a handler's call sequence on a fresh unary mock response. -/
def runMRes (calls : List ResCall) : MRes := calls.foldl mresStep {}

/-- `res.toResponse()` of the unary mock response. -/
def mresToResponse (st : MRes) : ResponseData :=
  { statusCode := st.statusCode, statusMessage := st.statusMessage,
    headers := assocSet st.headers (strOf "Content-Length")
      (natToStr (utf8Len st.responseBody)),
    body := st.responseBody }

/-- An observable streaming callback event: `onStart`, `onChunk` or
`onEnd`. -/
inductive StreamEv where
  | start (statusCode : Nat) (statusMessage : Str)
      (headers : List (Str × Str))
  | chunk (data : Str)
  | ende
deriving DecidableEq, Repr

/-- State of the streaming mock response
(`createStreamingMockResponse`), together with the trace of callback
events emitted so far. -/
structure SRes where
  statusCode : Nat := 200
  statusMessage : Str := strOf "OK"
  headers : List (Str × Str) := []
  ended : Bool := false
  headersSent : Bool := false
  events : List StreamEv := []
deriving Repr

/-- The `sendHeaders` closure: emit `onStart` once. -/
def sendHeadersS (st : SRes) : SRes :=
  if st.headersSent then st
  else
    { st with
      headersSent := true,
      events := st.events ++ [.start st.statusCode st.statusMessage st.headers] }

/-- The `markEnded` closure: on the first call, send headers then emit
`onEnd`. -/
def markEndedS (st : SRes) : SRes :=
  if st.ended then st
  else
    let st := sendHeadersS st
    { st with ended := true, events := st.events ++ [.ende] }

/-- One step of the streaming mock response, method by method from
`createStreamingMockResponse`. -/
def sresStep (st : SRes) : ResCall → SRes
  | .status code => { st with statusCode := code }
  | .setHeaderC name value =>
    { st with headers := assocSet st.headers name value }
  | .write chunk =>
    let st := sendHeadersS st
    { st with events := st.events ++ [.chunk chunk] }
  | .json data =>
    let hs := assocSet st.headers (strOf "Content-Type")
      (strOf "application/json; charset=utf-8")
    let st := { st with headers := hs }
    let st := sendHeadersS st
    markEndedS { st with events := st.events ++ [.chunk data] }
  | .send data isObj =>
    if isObj then
      let hs := assocSet st.headers (strOf "Content-Type")
        (strOf "application/json; charset=utf-8")
      let st := { st with headers := hs }
      let st := sendHeadersS st
      markEndedS { st with events := st.events ++ [.chunk data] }
    else
      let st := sendHeadersS st
      markEndedS { st with events := st.events ++ [.chunk data] }
  | .endC data =>
    match data with
    | some d =>
      let st := sendHeadersS st
      markEndedS { st with events := st.events ++ [.chunk d] }
    | none => markEndedS st
  | .redirectNum code url =>
    markEndedS { st with
      statusCode := code,
      headers := assocSet st.headers (strOf "Location") (url.getD (strOf "/")) }
  | .redirectUrl url =>
    markEndedS { st with
      statusCode := 307,
      headers := assocSet st.headers (strOf "Location") url }

/-- Run a handler's call sequence on a fresh streaming mock response. -/
def runSRes (calls : List ResCall) : SRes := calls.foldl sresStep {}

/-- The mock Next.js request object (`createMockRequest`).  `body` holds
the JSON-parsed request body abstractly. -/
structure MockReq where
  method : Str
  url : Str
  headers : List (Str × Str)
  query : List (Str × Str)
  body : Option Str
  cookies : List (Str × Str)
deriving DecidableEq, Repr

/-- Result of abstractly executing a legacy API handler: the sequence of
mock-response calls it performed, and the message of the exception it
threw (after those calls), if any. -/
structure ApiHandlerRun where
  calls : List ResCall
  thrown : Option Str
deriving Repr

/-- A JavaScript export slot of an executed route-handler module:
missing, a non-function value (with its truthiness), or a function
(identified by an opaque tag). -/
inductive JsExport where
  | undef
  | nonFn (truthy : Bool)
  | fn (tag : Str)
deriving DecidableEq, Repr

/-- JavaScript truthiness of an export slot. -/
def jsTruthy : JsExport → Bool
  | .undef => false
  | .nonFn t => t
  | .fn _ => true

/-- JavaScript `a || b`. -/
def jsOr (a b : JsExport) : JsExport := if jsTruthy a then a else b

/-- The arguments handed to a Web-style route handler. -/
structure RouteHandlerCall where
  method : Str
  url : Str
  headers : List (Str × Str)
  body : Option Str
  params : List (Str × PVal)
deriving Repr

/-- The value a Web-style route handler produced: a web `Response`, a
plain object (carried as its JSON serialization), any other value
(carried as its string form), or a thrown error. -/
inductive RouteHandlerOutcome where
  | web (status : Nat) (statusText : Str) (headers : List (Str × Str))
      (body : Str)
  | obj (json : Str)
  | text (s : Str)
  | thrown (msg : Str)
deriving Repr

/-- Ingredients interpolated into the App Router HTML template
(`generateAppRouterHtml`): everything the template text combines. -/
structure AppHtmlParts where
  virtualPfx : Str
  globalCssLinks : Str
  pageModulePath : Str
  layoutImports : Str
  loadingModulePath : Str
  errorModulePath : Str
  notFoundModulePath : Str
  nestedJsx : Str
  envScript : Str
  tailwindConfigScript : Str
  paramsJson : Str
  pathname : Str
deriving Repr

/-- Abstracted collaborators of the dispatcher.  Each field stands for a
part of the source that either executes user JavaScript (esbuild
transforms, `new Function` module evaluation, user handlers), performs
WHATWG decoding, or is a fixed string constant (shim sources, HTML
template text, the parent `DevServer`'s file serving) whose exact bytes no
claim depends on.  All routing, stripping, caching and response-shaping
logic stays concrete. -/
structure ServerEnv where
  /-- `transformCode` (esbuild ESM transform; `.error` models a throw). -/
  transformCode : Str → Str → Except Str Str
  /-- `transformApiHandler` (esbuild CJS transform). -/
  transformApiHandlerFn : Str → Str → Except Str Str
  /-- Message of the error thrown by `readFileSync` on a missing file. -/
  enoentMessage : Str → Str
  /-- `JSON.parse` of a request body (result abstracted as a string). -/
  jsonParse : Str → Except Str Str
  /-- `URLSearchParams` component decoding. -/
  urlDecode : Str → Str
  /-- `decodeURIComponent` used on cookie values. -/
  cookieDecode : Str → Str
  /-- `urlObj.searchParams.get('pathname') || '/'` on a search string. -/
  searchParamPathname : Str → Str
  /-- The static shim module sources (`NEXT_LINK_SHIM` and friends). -/
  shimCode : Str → Str
  /-- `loadTailwindConfigIfNeeded` (reads only the VFS). -/
  tailwindScript : VFS → Str
  /-- The pages-mode HTML template literal of `generatePageHtml` as a
  function of its interpolated ingredients (`virtualPrefix`, env script,
  tailwind config script, joined global-CSS links). -/
  pageHtmlTemplate : Str → Str → Str → Str → Str
  /-- The App Router HTML template literal of `generateAppRouterHtml` as a
  function of its interpolated ingredients. -/
  appHtmlTemplate : AppHtmlParts → Str
  /-- The static 404 page body of `serve404Page` as a function of the
  virtual prefix. -/
  notFoundHtml : Str → Str
  /-- The parent `DevServer.notFound` response for a path. -/
  baseNotFound : Str → ResponseData
  /-- The parent `DevServer.serveFile` (non-JSON files). -/
  baseServeFile : VFS → Str → ResponseData
  /-- Behaviour of a legacy API handler module: given the transformed CJS
  code and the mock request, the `res` calls it makes and whether it
  throws.  (`executeApiHandler`'s module evaluation.) -/
  apiHandlerBehavior : Str → MockReq → ApiHandlerRun
  /-- Exports of an executed App Router handler module: transformed code,
  route file and export name to export slot. -/
  routeModuleExports : Str → Str → Str → JsExport
  /-- Invocation of an exported route-handler function (by tag). -/
  callRouteHandler : Str → RouteHandlerCall → RouteHandlerOutcome

/-- Server configuration snapshot: the `NextDevServer` fields fixed at
construction.  `assetPfx` embeds the source's normalized asset-prefix
field and `basePath` its base-path field. -/
structure ServerConfig where
  port : Nat
  pagesDir : Str
  appDir : Str
  publicDir : Str
  useAppRouter : Bool
  assetPfx : Str
  basePath : Str

/-- The per-server virtual URL prefix `/__virtual__/<port>`. -/
def virtualPfxOf (cfg : ServerConfig) : Str :=
  strOf "/__virtual__/" ++ natToStr cfg.port

/-! ## Environment-variable injection -/

/-- Key filter of `generateEnvScript`: `key.startsWith('NEXT_PUBLIC_')`. -/
def isPublicKey (k : Str) : Bool := (strOf "NEXT_PUBLIC_").isPrefixOf k

/-- The `publicEnvVars` object built by `generateEnvScript`'s loop (object
assignment keeps insertion order, later duplicates overwrite). -/
def publicEnvVars (env : List (Str × Str)) : List (Str × Str) :=
  env.foldl (fun acc kv =>
    if isPublicKey kv.1 then assocSet acc kv.1 kv.2 else acc) []

/-- `generateEnvScript`: the script tag defining `process.env` with only
the public variables, plus `__NEXT_BASE_PATH__`. -/
def generateEnvScript (env : List (Str × Str)) (basePath : Str) : Str :=
  strOf "<script>\n  // Environment variables (injected by NextDevServer)\n  window.process = window.process || \x7b\x7d;\n  window.process.env = window.process.env || \x7b\x7d;\n  Object.assign(window.process.env, " ++
    jsonObj (publicEnvVars env) ++
    strOf ");\n  // Next.js config values\n  window.__NEXT_BASE_PATH__ = " ++
    jsonStr basePath ++ strOf ";\n</script>"

/-! ## Prefix stripping (`handleRequest`, lines 1517-1547) -/

/-- Strip the virtual prefix: the `pathname.match(/^\/__virtual__\/\d+/)`
step, with the `|| '/'` fallback for an empty remainder. -/
def stripVirtualPfx (pathname : Str) : Str :=
  let marker := strOf "/__virtual__/"
  if marker.isPrefixOf pathname then
    let rest := pathname.drop marker.length
    let digits := rest.takeWhile Char.isDigit
    if digits.isEmpty then pathname
    else
      let r := rest.drop digits.length
      if r.isEmpty then strOf "/" else r
  else pathname

/-- Strip the configured asset prefix, tolerating the double slash that
arises from concatenation. -/
def stripAssetPfx (a pathname : Str) : Str :=
  if !a.isEmpty && a.isPrefixOf pathname then
    let rest := pathname.drop a.length
    if rest.isEmpty || rest.head? == some '/' then
      let p := if rest.isEmpty then strOf "/" else rest
      if (strOf "//").isPrefixOf p then p.drop 1 else p
    else pathname
  else pathname

/-- Strip the configured base path. -/
def stripBasePathFn (b pathname : Str) : Str :=
  if !b.isEmpty && b.isPrefixOf pathname then
    let rest := pathname.drop b.length
    if rest.isEmpty || rest.head? == some '/' then
      (if rest.isEmpty then strOf "/" else rest)
    else pathname
  else pathname

/-! ## Transform-and-serve (content-addressed cache) -/

/-- The `X-Transform-Error` response body
(`// Transform Error: <msg>\nconsole.error(<json msg>);`). -/
def transformErrorBody (msg : Str) : Str :=
  strOf "// Transform Error: " ++ msg ++ strOf "\nconsole.error(" ++
    jsonStr msg ++ strOf ");"

/-- The 200 response serving a cached transform (`X-Cache: hit`). -/
def transformHitResponse (code : Str) : ResponseData :=
  { statusCode := 200, statusMessage := strOf "OK",
    headers :=
      [(strOf "Content-Type", strOf "application/javascript; charset=utf-8"),
       (strOf "Content-Length", natToStr (utf8Len code)),
       (strOf "Cache-Control", strOf "no-cache"),
       (strOf "X-Transformed", strOf "true"),
       (strOf "X-Cache", strOf "hit")],
    body := code }

/-- The 200 response serving a fresh transform (no `X-Cache` header). -/
def transformFreshResponse (transformed : Str) : ResponseData :=
  { statusCode := 200, statusMessage := strOf "OK",
    headers :=
      [(strOf "Content-Type", strOf "application/javascript; charset=utf-8"),
       (strOf "Content-Length", natToStr (utf8Len transformed)),
       (strOf "Cache-Control", strOf "no-cache"),
       (strOf "X-Transformed", strOf "true")],
    body := transformed }

/-- The catch branch of `transformAndServe`. -/
def transformErrorResponse (msg : Str) : ResponseData :=
  { statusCode := 200, statusMessage := strOf "OK",
    headers :=
      [(strOf "Content-Type", strOf "application/javascript; charset=utf-8"),
       (strOf "X-Transform-Error", strOf "true")],
    body := transformErrorBody msg }

/-- `transformAndServe`: hash the current content, serve from the cache on
a matching fingerprint (annotating `X-Cache: hit`), otherwise transform,
store and serve; a transformer throw yields the 200 error-logging body. -/
def transformAndServe (E : ServerEnv) (v : VFS) (cache : TransformCache)
    (filePath _urlPath : Str) : ResponseData × TransformCache :=
  match v.readFileSync? filePath with
  | none => (transformErrorResponse (E.enoentMessage filePath), cache)
  | some content =>
    let hash := simpleHash content
    let hit : Option Str :=
      match assocGet cache filePath with
      | some entry => if entry.2 == hash then some entry.1 else none
      | none => none
    match hit with
    | some code => (transformHitResponse code, cache)
    | none =>
      match E.transformCode content filePath with
      | .error msg => (transformErrorResponse msg, cache)
      | .ok transformed =>
        (transformFreshResponse transformed,
         assocSet cache filePath (transformed, hash))

/-! ## Synthetic serving -/

/-- Shim names recognized by the `switch` of `serveNextShim`. -/
def knownShims : List Str :=
  [strOf "link", strOf "router", strOf "head", strOf "navigation",
   strOf "image", strOf "dynamic", strOf "script", strOf "font/google",
   strOf "font/local"]

/-- Drop a trailing `.js` (the anchored `replace(/\.js$/, '')`). -/
def stripJsExt (s : Str) : Str :=
  if (strOf ".js").isSuffixOf s then s.dropLast.dropLast.dropLast else s

/-- `serveNextShim`: map the path to a shim name and serve its static
module source, or the parent 404 for unknown shims. -/
def serveNextShim (E : ServerEnv) (pathname : Str) : ResponseData :=
  let shimName :=
    replaceFirst (strOf ".js") []
      (replaceFirst (strOf "/_next/shims/") [] pathname)
  if knownShims.contains shimName then
    let code := E.shimCode shimName
    { statusCode := 200, statusMessage := strOf "OK",
      headers :=
        [(strOf "Content-Type", strOf "application/javascript; charset=utf-8"),
         (strOf "Content-Length", natToStr (utf8Len code)),
         (strOf "Cache-Control", strOf "no-cache")],
      body := code }
  else E.baseNotFound pathname

/-- `serveRouteInfo`: resolve and return `{ params, found }` as JSON. -/
def serveRouteInfo (cfg : ServerConfig) (v : VFS) (pathname : Str) :
    ResponseData :=
  let route := resolveAppRoute v cfg.appDir pathname
  let json :=
    match route with
    | some r =>
      [lbrace] ++ jsonStr (strOf "params") ++ [':'] ++ jsonParams r.params ++
        [','] ++ jsonStr (strOf "found") ++ [':'] ++ jsonBool true ++ [rbrace]
    | none =>
      [lbrace] ++ jsonStr (strOf "params") ++ [':'] ++ jsonParams [] ++
        [','] ++ jsonStr (strOf "found") ++ [':'] ++ jsonBool false ++ [rbrace]
  { statusCode := 200, statusMessage := strOf "OK",
    headers :=
      [(strOf "Content-Type", strOf "application/json; charset=utf-8"),
       (strOf "Content-Length", natToStr (utf8Len json)),
       (strOf "Cache-Control", strOf "no-cache")],
    body := json }

/-- `resolvePath` of the overridden `serveFile` (root is `/`). -/
def resolvePathFn (urlPath : Str) : Str :=
  let path :=
    (urlPath.takeWhile (fun c => c ≠ '?')).takeWhile (fun c => c ≠ '#')
  if path.head? == some '/' then path else '/' :: path

/-- The overridden `serveFile`: JSON files are wrapped as ES modules, all
other files fall through to the parent implementation. -/
def serveFile (E : ServerEnv) (v : VFS) (filePath : Str) : ResponseData :=
  if (strOf ".json").isSuffixOf filePath then
    match v.readFileSync? (resolvePathFn filePath) with
    | some content =>
      let esModuleContent := strOf "export default " ++ content ++ strOf ";"
      { statusCode := 200, statusMessage := strOf "OK",
        headers :=
          [(strOf "Content-Type",
            strOf "application/javascript; charset=utf-8"),
           (strOf "Content-Length", natToStr (utf8Len esModuleContent)),
           (strOf "Cache-Control", strOf "no-cache")],
        body := esModuleContent }
    | none => E.baseNotFound filePath
  else E.baseServeFile v filePath

/-- `servePageComponent`: `/_next/pages/about.js` resolves `/about` and
serves the transformed page module. -/
def servePageComponent (E : ServerEnv) (cfg : ServerConfig) (v : VFS)
    (cache : TransformCache) (pathname : Str) :
    ResponseData × TransformCache :=
  let route := stripJsExt (replaceFirst (strOf "/_next/pages") [] pathname)
  match resolvePageFile v cfg.pagesDir route with
  | none => (E.baseNotFound pathname, cache)
  | some pageFile => transformAndServe E v cache pageFile pageFile

/-- Extension order of `serveAppComponent`
(`['.tsx', '.jsx', '.ts', '.js']`). -/
def appCompExts : List Str :=
  [strOf ".tsx", strOf ".jsx", strOf ".ts", strOf ".js"]

/-- `serveAppComponent`: `/_next/app/app/about/page.js` maps to the
underlying source file and serves it transformed. -/
def serveAppComponent (E : ServerEnv) (v : VFS) (cache : TransformCache)
    (pathname : Str) : ResponseData × TransformCache :=
  let filePath := stripJsExt (replaceFirst (strOf "/_next/app") [] pathname)
  match
    appCompExts.findSome? (fun ext =>
      if v.existsSync (filePath ++ ext) then some (filePath ++ ext)
      else none) with
  | some fullPath => transformAndServe E v cache fullPath fullPath
  | none => (E.baseNotFound pathname, cache)

/-- `serveStaticAsset`: map `/_next/static/*` back onto the VFS. -/
def serveStaticAsset (E : ServerEnv) (v : VFS) (pathname : Str) :
    ResponseData :=
  let filePath := replaceFirst (strOf "/_next/static/") (strOf "/") pathname
  if v.existsSync filePath then serveFile E v filePath
  else E.baseNotFound pathname

/-! ## Legacy API handler execution -/

/-- JavaScript whitespace trim (ASCII uses of the source). -/
def trimStr (s : Str) : Str :=
  let ws := fun c => c = ' ' || c = '\t' || c = '\n' || c = '\r'
  ((s.dropWhile ws).reverse.dropWhile ws).reverse

/-- `parseCookies`: split on `;`, trim, split at `=`, decode values. -/
def parseCookies (E : ServerEnv) (cookieHeader : Str) :
    List (Str × Str) :=
  if cookieHeader.isEmpty then []
  else
    (splitOnChar ';' cookieHeader).foldl (fun acc cookie =>
      let parts := splitOnChar '=' (trimStr cookie)
      match parts with
      | name :: value :: _ =>
        if !name.isEmpty && !value.isEmpty then
          assocSet acc name (E.cookieDecode value)
        else acc
      | _ => acc) []

/-- The search component a WHATWG `URL` extracts from a string: what
follows the first `?`, up to a `#`. -/
def urlSearchOf (u : Str) : Str :=
  let after := u.dropWhile (fun c => c ≠ '?')
  (after.drop 1).takeWhile (fun c => c ≠ '#')

/-- `Object.fromEntries(url.searchParams)`: split the search on `&`, each
pair at the first `=`, decode, later keys overwrite earlier ones. -/
def parseSearchParams (E : ServerEnv) (search : Str) : List (Str × Str) :=
  (splitOnChar '&' search).foldl (fun acc pair =>
    if pair.isEmpty then acc
    else
      let k := pair.takeWhile (fun c => c ≠ '=')
      let vraw := (pair.drop k.length).drop 1
      assocSet acc (E.urlDecode k) (E.urlDecode vraw)) []

/-- `createMockRequest`: URL-parsed query, parsed cookies, JSON-parsed
body.  `JSON.parse` may throw on a malformed body, propagating into the
surrounding `catch`. -/
def createMockRequest (E : ServerEnv) (method pathname : Str)
    (headers : List (Str × Str)) (body : Option Str) :
    Except Str MockReq :=
  let mk := fun (parsedBody : Option Str) =>
    ({ method := method, url := pathname, headers := headers,
       query := parseSearchParams E (urlSearchOf pathname),
       body := parsedBody,
       cookies :=
         parseCookies E ((assocGet headers (strOf "cookie")).getD []) } :
      MockReq)
  match body with
  | none => .ok (mk none)
  | some b =>
    match E.jsonParse b with
    | .error msg => .error msg
    | .ok parsed => .ok (mk (some parsed))

/-- A 500 `{ "error": msg }` JSON response (the dispatcher's catch). -/
def serverError500 (msg : Str) : ResponseData :=
  { statusCode := 500, statusMessage := strOf "Internal Server Error",
    headers :=
      [(strOf "Content-Type", strOf "application/json; charset=utf-8")],
    body := jsonObj [(strOf "error", msg)] }

/-- `handleApiRoute`: resolve the handler file, transform to CJS, run the
handler on mock `req`/`res`, fail after the timeout if the response never
ends, and translate any throw into a 500 JSON response. -/
def handleApiRoute (E : ServerEnv) (cfg : ServerConfig) (v : VFS)
    (method pathname : Str) (headers : List (Str × Str))
    (body : Option Str) : ResponseData :=
  match resolveApiFile v cfg.pagesDir pathname with
  | none =>
    { statusCode := 404, statusMessage := strOf "Not Found",
      headers :=
        [(strOf "Content-Type", strOf "application/json; charset=utf-8")],
      body := jsonObj [(strOf "error", strOf "API route not found")] }
  | some apiFile =>
    match v.readFileSync? apiFile with
    | none => serverError500 (E.enoentMessage apiFile)
    | some code =>
      match E.transformApiHandlerFn code apiFile with
      | .error msg => serverError500 msg
      | .ok transformed =>
        match createMockRequest E method pathname headers body with
        | .error msg => serverError500 msg
        | .ok req =>
          let run := E.apiHandlerBehavior transformed req
          match run.thrown with
          | some msg => serverError500 msg
          | none =>
            let st := runMRes run.calls
            if !st.ended then
              serverError500 (strOf "API handler timeout")
            else mresToResponse st

/-! ## Web-style App Router handler execution -/

/-- `handleAppRouteHandler`: transform the route module to CJS, evaluate
it, pick the export named after the HTTP method (upper case `||` lower
case), return 405 when it is not a function, otherwise invoke it and
translate the result. -/
def handleAppRouteHandler (E : ServerEnv) (cfg : ServerConfig) (v : VFS)
    (method pathname : Str) (headers : List (Str × Str))
    (body : Option Str) (routeFile search : Str) : ResponseData :=
  match v.readFileSync? routeFile with
  | none => serverError500 (E.enoentMessage routeFile)
  | some code =>
    match E.transformApiHandlerFn code routeFile with
    | .error msg => serverError500 msg
    | .ok transformed =>
      let methodUpper := toUpperStr method
      match
        jsOr (E.routeModuleExports transformed routeFile methodUpper)
          (E.routeModuleExports transformed routeFile
            (toLowerStr methodUpper)) with
      | .fn tag =>
        let requestBody :=
          match body with
          | some b =>
            if methodUpper ≠ strOf "GET" && methodUpper ≠ strOf "HEAD" then
              some b
            else none
          | none => none
        let params :=
          match resolveAppRoute v cfg.appDir pathname with
          | some r => r.params
          | none => []
        match
          E.callRouteHandler tag
            { method := methodUpper,
              url := strOf "http://localhost" ++ pathname ++ search,
              headers := headers, body := requestBody, params := params } with
        | .web status statusText hs b =>
          { statusCode := status,
            statusMessage :=
              if statusText.isEmpty then strOf "OK" else statusText,
            headers := hs, body := b }
        | .obj json =>
          { statusCode := 200, statusMessage := strOf "OK",
            headers :=
              [(strOf "Content-Type",
                strOf "application/json; charset=utf-8")],
            body := json }
        | .text s =>
          { statusCode := 200, statusMessage := strOf "OK",
            headers :=
              [(strOf "Content-Type", strOf "text/plain; charset=utf-8")],
            body := s }
        | .thrown msg => serverError500 msg
      | _ =>
        { statusCode := 405, statusMessage := strOf "Method Not Allowed",
          headers :=
            [(strOf "Content-Type", strOf "application/json; charset=utf-8")],
          body :=
            jsonObj [(strOf "error",
              strOf "Method " ++ method ++ strOf " not allowed")] }

/-! ## Streaming dispatch -/

/-- The event triple the streaming catch branch emits
(`onStart(500)` / error chunk / `onEnd`). -/
def streamErrorEvents (msg : Str) : List StreamEv :=
  [.start 500 (strOf "Internal Server Error")
      [(strOf "Content-Type", strOf "application/json")],
   .chunk (jsonObj [(strOf "error", msg)]),
   .ende]

/-- `handleStreamingRequest`, observed as its trace of
`onStart`/`onChunk`/`onEnd` callback invocations.  Only `/api/` paths are
served (no prefix stripping happens here); everything else streams a 404
JSON response. -/
def handleStreamingRequest (E : ServerEnv) (cfg : ServerConfig) (v : VFS)
    (method pathname : Str) (headers : List (Str × Str))
    (body : Option Str) : List StreamEv :=
  if !(strOf "/api/").isPrefixOf pathname then
    [.start 404 (strOf "Not Found")
        [(strOf "Content-Type", strOf "application/json")],
     .chunk (jsonObj [(strOf "error", strOf "Not found")]),
     .ende]
  else
    match resolveApiFile v cfg.pagesDir pathname with
    | none =>
      [.start 404 (strOf "Not Found")
          [(strOf "Content-Type", strOf "application/json")],
       .chunk (jsonObj [(strOf "error", strOf "API route not found")]),
       .ende]
    | some apiFile =>
      match v.readFileSync? apiFile with
      | none => streamErrorEvents (E.enoentMessage apiFile)
      | some code =>
        match E.transformApiHandlerFn code apiFile with
        | .error msg => streamErrorEvents msg
        | .ok transformed =>
          match createMockRequest E method pathname headers body with
          | .error msg => streamErrorEvents msg
          | .ok req =>
            let run := E.apiHandlerBehavior transformed req
            let st := runSRes run.calls
            match run.thrown with
            | some msg => st.events ++ streamErrorEvents msg
            | none =>
              if st.ended then st.events
              else st.events ++
                streamErrorEvents (strOf "API handler timeout")

/-! ## HTML shell synthesis

Both HTML generators build one template literal.  The template text is
abstracted as an environment function of the computed ingredients; the
ingredients themselves (virtual prefix, env-injection script, global-CSS
link tags, module paths, layout import statements, nested JSX, params
JSON) are computed here exactly as in the source.  Crucially the
environment-variable map reaches the output only through
`generateEnvScript` (source lines 2816 and 3314). -/

/-- Build one global stylesheet link tag. -/
def cssLinkTag (virtualPfx cssPath : Str) : Str :=
  strOf "<link rel=\"stylesheet\" href=\"" ++ virtualPfx ++ cssPath ++
    strOf "\">"

/-- Joined global-CSS link tags in the order scanned by the generator. -/
def globalCssLinksOf (v : VFS) (virtualPfx : Str) (locations : List Str) :
    Str :=
  List.intercalate (strOf "\n  ")
    ((locations.filter v.existsSync).map (cssLinkTag virtualPfx))

/-- CSS scan order of `generateAppRouterHtml`. -/
def appCssLocations : List Str :=
  [strOf "/app/globals.css", strOf "/styles/globals.css",
   strOf "/styles/global.css"]

/-- CSS scan order of `generatePageHtml`. -/
def pagesCssLocations : List Str :=
  [strOf "/styles/globals.css", strOf "/styles/global.css",
   strOf "/app/globals.css"]

/-- The nested JSX string built by the backwards loop of
`generateAppRouterHtml`: `Layout0` outermost around `Page`. -/
def nestedJsxGo : Nat → Nat → Str
  | _, 0 => strOf "React.createElement(Page)"
  | idx, k + 1 =>
    strOf "React.createElement(Layout" ++ natToStr idx ++
      strOf ", null, " ++ nestedJsxGo (idx + 1) k ++ strOf ")"

/-- The layout import statements joined with `'\n    '`. -/
def layoutImportsOf (virtualPfx : Str) (layouts : List Str) : Str :=
  List.intercalate (strOf "\n    ")
    (layouts.mapIdx (fun i l =>
      strOf "import Layout" ++ natToStr i ++ strOf " from '" ++
        virtualPfx ++ l ++ strOf "';"))

/-- `generateAppRouterHtml`: assemble the ingredients and instantiate the
template. -/
def generateAppRouterHtml (E : ServerEnv) (cfg : ServerConfig)
    (envv : List (Str × Str)) (v : VFS) (route : AppRoute)
    (pathname : Str) : Str :=
  let virtualPfx := virtualPfxOf cfg
  E.appHtmlTemplate
    { virtualPfx := virtualPfx,
      globalCssLinks := globalCssLinksOf v virtualPfx appCssLocations,
      pageModulePath := virtualPfx ++ route.page,
      layoutImports := layoutImportsOf virtualPfx route.layouts,
      loadingModulePath :=
        (route.loading.map (fun l => virtualPfx ++ l)).getD [],
      errorModulePath :=
        (route.error.map (fun l => virtualPfx ++ l)).getD [],
      notFoundModulePath :=
        (route.notFound.map (fun l => virtualPfx ++ l)).getD [],
      nestedJsx := nestedJsxGo 0 route.layouts.length,
      envScript := generateEnvScript envv cfg.basePath,
      tailwindConfigScript := E.tailwindScript v,
      paramsJson := jsonParams route.params,
      pathname := pathname }

/-- `generatePageHtml`: assemble the pages-mode ingredients and
instantiate the template. -/
def generatePageHtml (E : ServerEnv) (cfg : ServerConfig)
    (envv : List (Str × Str)) (v : VFS) (_pageFile _pathname : Str) : Str :=
  let virtualPfx := virtualPfxOf cfg
  E.pageHtmlTemplate virtualPfx (generateEnvScript envv cfg.basePath)
    (E.tailwindScript v) (globalCssLinksOf v virtualPfx pagesCssLocations)

/-- `serve404Page`: the built-in 404 HTML document. -/
def serve404Page (E : ServerEnv) (cfg : ServerConfig) : ResponseData :=
  let html := E.notFoundHtml (virtualPfxOf cfg)
  { statusCode := 404, statusMessage := strOf "Not Found",
    headers :=
      [(strOf "Content-Type", strOf "text/html; charset=utf-8"),
       (strOf "Content-Length", natToStr (utf8Len html))],
    body := html }

/-- `handleAppRouterPage`: resolve; on success emit the app shell, on
failure try the `/not-found` route with status 404, else built-in 404. -/
def handleAppRouterPage (E : ServerEnv) (cfg : ServerConfig)
    (envv : List (Str × Str)) (v : VFS) (pathname _search : Str) :
    ResponseData :=
  match resolveAppRoute v cfg.appDir pathname with
  | none =>
    match resolveAppRoute v cfg.appDir (strOf "/not-found") with
    | some notFoundRoute =>
      { statusCode := 404, statusMessage := strOf "Not Found",
        headers := [(strOf "Content-Type", strOf "text/html; charset=utf-8")],
        body :=
          generateAppRouterHtml E cfg envv v notFoundRoute
            (strOf "/not-found") }
    | none => serve404Page E cfg
  | some route =>
    let html := generateAppRouterHtml E cfg envv v route pathname
    { statusCode := 200, statusMessage := strOf "OK",
      headers :=
        [(strOf "Content-Type", strOf "text/html; charset=utf-8"),
         (strOf "Content-Length", natToStr (utf8Len html)),
         (strOf "Cache-Control", strOf "no-cache")],
      body := html }

/-- `handlePageRoute`: App Router when enabled, else pages-mode
resolution with `/404` fallback; a direct request for a transformable
page file is served transformed. -/
def handlePageRoute (E : ServerEnv) (cfg : ServerConfig)
    (envv : List (Str × Str)) (v : VFS) (cache : TransformCache)
    (pathname search : Str) : ResponseData × TransformCache :=
  if cfg.useAppRouter then
    (handleAppRouterPage E cfg envv v pathname search, cache)
  else
    match resolvePageFile v cfg.pagesDir pathname with
    | none =>
      match resolvePageFile v cfg.pagesDir (strOf "/404") with
      | some notFoundPage =>
        ({ statusCode := 404, statusMessage := strOf "Not Found",
           headers :=
             [(strOf "Content-Type", strOf "text/html; charset=utf-8")],
           body := generatePageHtml E cfg envv v notFoundPage (strOf "/404") },
         cache)
      | none => (serve404Page E cfg, cache)
    | some pageFile =>
      if needsTransform pathname then
        transformAndServe E v cache pageFile pathname
      else
        let html := generatePageHtml E cfg envv v pageFile pathname
        ({ statusCode := 200, statusMessage := strOf "OK",
           headers :=
             [(strOf "Content-Type", strOf "text/html; charset=utf-8"),
              (strOf "Content-Length", natToStr (utf8Len html)),
              (strOf "Cache-Control", strOf "no-cache")],
           body := html }, cache)

/-! ## Top-level dispatch -/

/-- The decision chain of `handleRequest` after prefix stripping, branch
for branch in source order. -/
def dispatch (E : ServerEnv) (cfg : ServerConfig)
    (envv : List (Str × Str)) (v : VFS) (cache : TransformCache)
    (method pathname search : Str) (headers : List (Str × Str))
    (body : Option Str) : ResponseData × TransformCache :=
  if (strOf "/_next/shims/").isPrefixOf pathname then
    (serveNextShim E pathname, cache)
  else if pathname == strOf "/_next/route-info" then
    (serveRouteInfo cfg v (E.searchParamPathname search), cache)
  else if (strOf "/_next/pages/").isPrefixOf pathname then
    servePageComponent E cfg v cache pathname
  else if (strOf "/_next/app/").isPrefixOf pathname then
    serveAppComponent E v cache pathname
  else if (strOf "/_next/static/").isPrefixOf pathname then
    (serveStaticAsset E v pathname, cache)
  else
    match
      (if cfg.useAppRouter then
        resolveAppRouteHandler v cfg.appDir pathname
      else none) with
    | some routeFile =>
      (handleAppRouteHandler E cfg v method pathname headers body routeFile
        search, cache)
    | none =>
      if (strOf "/api/").isPrefixOf pathname then
        (handleApiRoute E cfg v method pathname headers body, cache)
      else
        let publicPath := cfg.publicDir ++ pathname
        if v.existsSync publicPath && !v.isDirectorySync publicPath then
          (serveFile E v publicPath, cache)
        else if needsTransform pathname && v.existsSync pathname then
          transformAndServe E v cache pathname pathname
        else
          match resolveFileWithExtension v pathname with
          | some resolvedFile =>
            if needsTransform resolvedFile then
              transformAndServe E v cache resolvedFile pathname
            else (serveFile E v resolvedFile, cache)
          | none =>
            if v.existsSync pathname && !v.isDirectorySync pathname then
              (serveFile E v pathname, cache)
            else handlePageRoute E cfg envv v cache pathname search

/-- `handleRequest`, taking the already URL-parsed `pathname` and
`search` components of the request URL (the WHATWG `new URL(url, ...)`
parse happens outside the embedded core): strip the virtual prefix, the
asset prefix and the base path, then dispatch. -/
def handleRequest (E : ServerEnv) (cfg : ServerConfig)
    (envv : List (Str × Str)) (v : VFS) (cache : TransformCache)
    (method pathname search : Str) (headers : List (Str × Str))
    (body : Option Str) : ResponseData × TransformCache :=
  let p1 := stripVirtualPfx pathname
  let p2 := stripAssetPfx cfg.assetPfx p1
  let p3 := stripBasePathFn cfg.basePath p2
  dispatch E cfg envv v cache method p3 search headers body

/-! ## Concrete instances used by closed evaluations

`trivialEnv` instantiates every abstracted collaborator with the simplest
value of the right type (identity transforms, empty static text, a
handler that does nothing); concrete scenarios override single fields. -/

/-- A server environment with identity transforms, empty static blobs and
an inert handler. -/
def trivialEnv : ServerEnv where
  transformCode := fun c _ => .ok c
  transformApiHandlerFn := fun c _ => .ok c
  enoentMessage := fun _ => strOf "ENOENT"
  jsonParse := fun b => .ok b
  urlDecode := fun s => s
  cookieDecode := fun s => s
  searchParamPathname := fun _ => strOf "/"
  shimCode := fun _ => []
  tailwindScript := fun _ => []
  pageHtmlTemplate := fun _ _ _ _ => []
  appHtmlTemplate := fun _ => []
  notFoundHtml := fun _ => []
  baseNotFound := fun p =>
    { statusCode := 404, statusMessage := strOf "Not Found", headers := [],
      body := p }
  baseServeFile := fun v p =>
    { statusCode := 200, statusMessage := strOf "OK", headers := [],
      body := (v.readFileSync? p).getD [] }
  apiHandlerBehavior := fun _ _ => { calls := [], thrown := none }
  routeModuleExports := fun _ _ _ => .undef
  callRouteHandler := fun _ _ => .text []

/-- A pages-mode server configuration with default directories. -/
def cfgPages : ServerConfig :=
  { port := 3001, pagesDir := strOf "/pages", appDir := strOf "/app",
    publicDir := strOf "/public", useAppRouter := false, assetPfx := [],
    basePath := [] }

/-- An app-mode server configuration with default directories. -/
def cfgApp : ServerConfig :=
  { port := 3001, pagesDir := strOf "/pages", appDir := strOf "/app",
    publicDir := strOf "/public", useAppRouter := true, assetPfx := [],
    basePath := [] }

/-! ## C5: route groups contribute layouts without consuming a segment -/

/-- Scenario VFS of claim C5 with a root layout present. -/
def vfsGroupWithRootLayout : VFS :=
  ⟨[(strOf "/app/layout.tsx", strOf "root layout"),
    (strOf "/app/(marketing)/layout.tsx", strOf "group layout"),
    (strOf "/app/(marketing)/about/page.tsx", strOf "about page")]⟩

/-- Scenario VFS of claim C5 without a root layout. -/
def vfsGroupNoRootLayout : VFS :=
  ⟨[(strOf "/app/(marketing)/layout.tsx", strOf "group layout"),
    (strOf "/app/(marketing)/about/page.tsx", strOf "about page")]⟩

/-- C5: with `/app/(marketing)/layout.tsx` and
`/app/(marketing)/about/page.tsx` in the VFS, resolving `/about` yields
that page, the layouts outermost-first — the root `/app/layout.*` (when
present) followed by the group layout, the group consuming no URL
segment — and empty params. -/
theorem claim5_route_group_layouts :
    resolveAppRoute vfsGroupWithRootLayout (strOf "/app") (strOf "/about") =
      some { page := strOf "/app/(marketing)/about/page.tsx",
             layouts := [strOf "/app/layout.tsx",
               strOf "/app/(marketing)/layout.tsx"],
             params := [], loading := none, error := none,
             notFound := none } ∧
    resolveAppRoute vfsGroupNoRootLayout (strOf "/app") (strOf "/about") =
      some { page := strOf "/app/(marketing)/about/page.tsx",
             layouts := [strOf "/app/(marketing)/layout.tsx"],
             params := [], loading := none, error := none,
             notFound := none } := by
  decide

/-! ## C6: catch-all segments bind the remaining segments -/

/-- Scenario VFS of claim C6 (catch-all). -/
def vfsCatchAll : VFS :=
  ⟨[(strOf "/app/docs/[...slug]/page.tsx", strOf "docs page")]⟩

/-- Companion VFS with a single dynamic segment. -/
def vfsSingleDyn : VFS :=
  ⟨[(strOf "/app/users/[id]/page.tsx", strOf "user page")]⟩

/-- C6: with `/app/docs/[...slug]/page.tsx` in the VFS, resolving
`/docs/a/b/c` succeeds and binds `params.slug = ["a","b","c"]`; a single
dynamic segment (`/app/users/[id]/page.tsx` against `/users/42`) binds a
plain string, the params keys being exactly the dynamic segments
crossed. -/
theorem claim6_catchall_params :
    resolveAppRoute vfsCatchAll (strOf "/app") (strOf "/docs/a/b/c") =
      some { page := strOf "/app/docs/[...slug]/page.tsx",
             layouts := [],
             params := [(strOf "slug",
               .arr [strOf "a", strOf "b", strOf "c"])],
             loading := none, error := none, notFound := none } ∧
    resolveAppRoute vfsSingleDyn (strOf "/app") (strOf "/users/42") =
      some { page := strOf "/app/users/[id]/page.tsx",
             layouts := [],
             params := [(strOf "id", .s (strOf "42"))],
             loading := none, error := none, notFound := none } := by
  decide

/-! ## C7: optional catch-all and the empty remainder -/

/-- Scenario VFS of claim C7 (optional catch-all). -/
def vfsOptCatchAll : VFS :=
  ⟨[(strOf "/app/docs/[[...slug]]/page.tsx", strOf "docs page")]⟩

/-- C7 (code bug): with `/app/docs/[[...slug]]/page.tsx` in the VFS the
source FAILS to resolve `/docs` — `resolveAppDynamicRoute` only considers
`[[...name]]` children while consuming a segment (its `[[...]]` branch is
identical to the `[...]` branch) and never when the segments are already
exhausted, so the optional catch-all never matches the empty remainder,
although it does match a non-empty tail such as `/docs/a`. -/
theorem claim7_optional_catchall_empty_bug :
    resolveAppRoute vfsOptCatchAll (strOf "/app") (strOf "/docs") = none ∧
    resolveAppRoute vfsOptCatchAll (strOf "/app") (strOf "/docs/a") =
      some { page := strOf "/app/docs/[[...slug]]/page.tsx",
             layouts := [],
             params := [(strOf "slug", .arr [strOf "a"])],
             loading := none, error := none, notFound := none } := by
  decide

/-! ## C10: streaming dispatch serves only literal `/api/` paths -/

/-- C10: `handleStreamingRequest` performs no virtual-prefix, asset-prefix
or base-path stripping — for every pathname that does not literally begin
with `/api/` (page paths, shim paths, prefixed API paths alike) it streams
the fixed 404 JSON response as `onStart(404)` / one `onChunk` / `onEnd`,
for any environment, configuration and VFS. -/
theorem claim10_streaming_only_api (E : ServerEnv) (cfg : ServerConfig)
    (v : VFS) (method pathname : Str) (headers : List (Str × Str))
    (body : Option Str)
    (h : (strOf "/api/").isPrefixOf pathname = false) :
    handleStreamingRequest E cfg v method pathname headers body =
      [.start 404 (strOf "Not Found")
          [(strOf "Content-Type", strOf "application/json")],
       .chunk (jsonObj [(strOf "error", strOf "Not found")]),
       .ende] := by
  unfold handleStreamingRequest
  rw [h]
  rfl

/-- Scenario VFS for the streaming witness: an existing page and an
existing API handler file. -/
def vfsStreamW : VFS :=
  ⟨[(strOf "/pages/index.jsx", strOf "page"),
    (strOf "/pages/api/hello.js", strOf "api")]⟩

/-- Witness for C10 at the virtual-prefixed API path
`/__virtual__/3001/api/hello` (which unary dispatch would strip, but the
streaming entry point does not). -/
theorem claim10_streaming_only_api_witness :
    (strOf "/api/").isPrefixOf (strOf "/__virtual__/3001/api/hello") =
      false ∧
    handleStreamingRequest trivialEnv cfgPages vfsStreamW (strOf "GET")
        (strOf "/__virtual__/3001/api/hello") [] none =
      [.start 404 (strOf "Not Found")
          [(strOf "Content-Type", strOf "application/json")],
       .chunk (jsonObj [(strOf "error", strOf "Not found")]),
       .ende] :=
  ⟨by decide,
   claim10_streaming_only_api trivialEnv cfgPages vfsStreamW (strOf "GET")
     (strOf "/__virtual__/3001/api/hello") [] none (by decide)⟩

/-! ## C8: method-not-allowed on app route handlers -/

/-- Whether an export slot holds a function
(`typeof handler === 'function'`). -/
def isFnExport : JsExport → Bool
  | .fn _ => true
  | _ => false

/-- JavaScript `a || b` is a function only if the branch it selects is. -/
theorem jsOr_not_fn {a b : JsExport} (ha : isFnExport a = false)
    (hb : isFnExport b = false) : isFnExport (jsOr a b) = false := by
  unfold jsOr
  split <;> assumption

/-- C8: whenever the resolved route module exports no function under
either the upper-case or the lower-case spelling of the HTTP method, the
dispatcher answers 405 `Method Not Allowed` with the JSON body
`{ error: "Method <method> not allowed" }` (the method interpolated as
received). -/
theorem claim8_method_not_allowed (E : ServerEnv) (cfg : ServerConfig)
    (v : VFS) (method pathname : Str) (headers : List (Str × Str))
    (body : Option Str) (routeFile search content transformed : Str)
    (hread : v.readFileSync? routeFile = some content)
    (htrans : E.transformApiHandlerFn content routeFile = .ok transformed)
    (hupper : isFnExport
      (E.routeModuleExports transformed routeFile (toUpperStr method)) =
        false)
    (hlower : isFnExport
      (E.routeModuleExports transformed routeFile
        (toLowerStr (toUpperStr method))) = false) :
    handleAppRouteHandler E cfg v method pathname headers body routeFile
        search =
      { statusCode := 405, statusMessage := strOf "Method Not Allowed",
        headers :=
          [(strOf "Content-Type", strOf "application/json; charset=utf-8")],
        body :=
          jsonObj [(strOf "error",
            strOf "Method " ++ method ++ strOf " not allowed")] } := by
  unfold handleAppRouteHandler
  simp only [hread, htrans]
  have hfn := jsOr_not_fn hupper hlower
  cases hj : jsOr
      (E.routeModuleExports transformed routeFile (toUpperStr method))
      (E.routeModuleExports transformed routeFile
        (toLowerStr (toUpperStr method))) with
  | fn tag => rw [hj] at hfn; exact absurd hfn (by simp [isFnExport])
  | undef => rfl
  | nonFn t => rfl

/-- Environment of the C8 witness: the route module exports `GET` only. -/
def envOnlyGet : ServerEnv :=
  { trivialEnv with
    routeModuleExports := fun _ _ name =>
      if name == strOf "GET" then .fn (strOf "get-handler") else .undef }

/-- Scenario VFS of the C8 witness: one app route handler. -/
def vfsRouteOnlyGet : VFS :=
  ⟨[(strOf "/app/api/data/route.ts", strOf "export const GET = ...")]⟩

/-- Witness for C8: a `POST` against a handler exporting only `GET`
receives 405 with body `{"error":"Method POST not allowed"}`. -/
theorem claim8_method_not_allowed_witness :
    handleAppRouteHandler envOnlyGet cfgApp vfsRouteOnlyGet (strOf "POST")
        (strOf "/api/data") [] none (strOf "/app/api/data/route.ts") [] =
      { statusCode := 405, statusMessage := strOf "Method Not Allowed",
        headers :=
          [(strOf "Content-Type", strOf "application/json; charset=utf-8")],
        body :=
          jsonObj [(strOf "error",
            strOf "Method POST not allowed")] } := by
  have h := claim8_method_not_allowed envOnlyGet cfgApp vfsRouteOnlyGet
    (strOf "POST") (strOf "/api/data") [] none
    (strOf "/app/api/data/route.ts") []
    (strOf "export const GET = ...")
    (strOf "export const GET = ...")
    (by decide) (by rfl) (by decide) (by decide)
  rw [h]
  decide

/-! ## C9: the legacy mock request's query object -/

/-- Environment of the C9 evaluation: the API handler is the echo program
`(req, res) => res.json(req.query)`, a legitimate user handler whose
response body exposes the query object the dispatcher built. -/
def envEchoQuery : ServerEnv :=
  { trivialEnv with
    apiHandlerBehavior := fun _ req =>
      { calls := [.json (jsonObj req.query)], thrown := none } }

/-- Scenario VFS of C9: one legacy API handler. -/
def vfsApiHello : VFS :=
  ⟨[(strOf "/pages/api/hello.js", strOf "module.exports = handler")]⟩

/-- C9 (code bug): for `GET /api/hello?name=world`, `handleRequest` hands
`handleApiRoute` only `urlObj.pathname` — the query string never reaches
`createMockRequest`, whose `url.searchParams` parse is left with nothing —
so the handler observes `req.query = {}` (the echoed body is `{}`), not
the URL-parsed `{"name":"world"}` the claim describes.  The final
conjunct shows `createMockRequest` itself does extract the parameters
when the query string reaches it, locating the drop at the call site. -/
theorem claim9_query_always_empty :
    (handleRequest envEchoQuery cfgPages [] vfsApiHello [] (strOf "GET")
        (strOf "/api/hello") (strOf "?name=world") [] none).1.body =
      jsonObj [] ∧
    jsonObj [] ≠ jsonObj [(strOf "name", strOf "world")] ∧
    ((createMockRequest envEchoQuery (strOf "GET")
        (strOf "/api/hello?name=world") [] none).toOption.map
          MockReq.query) =
      some [(strOf "name", strOf "world")] := by
  decide

/-! ## C2: content-addressed transform caching -/

/-- Looking up the key just stored finds the stored value. -/
theorem assocGet_set_self {α : Type} (ps : List (Str × α)) (k : Str)
    (v : α) : assocGet (assocSet ps k v) k = some v := by
  induction ps with
  | nil => simp [assocSet, assocGet]
  | cons hd tl ih =>
    rcases hd with ⟨k0, v0⟩
    by_cases h : (k0 == k) = true
    · simp [assocSet, assocGet, h]
    · simp only [assocSet, h, Bool.false_eq_true, if_false]
      simpa [assocGet, h] using ih

/-- Step equation: a matching fingerprint serves from the cache. -/
theorem tas_hit (E : ServerEnv) (v : VFS) (cache : TransformCache)
    (f c : Str) (entry : Str × Str)
    (hread : v.readFileSync? f = some c)
    (hc : assocGet cache f = some entry)
    (hmatch : (entry.2 == simpleHash c) = true) :
    transformAndServe E v cache f f = (transformHitResponse entry.1, cache) := by
  simp [transformAndServe, hread, hc, hmatch]

/-- Step equation: an empty cache slot transforms afresh and stores. -/
theorem tas_fresh_none (E : ServerEnv) (v : VFS) (cache : TransformCache)
    (f c t : Str) (hread : v.readFileSync? f = some c)
    (hc : assocGet cache f = none)
    (htrans : E.transformCode c f = .ok t) :
    transformAndServe E v cache f f =
      (transformFreshResponse t, assocSet cache f (t, simpleHash c)) := by
  simp [transformAndServe, hread, hc, htrans]

/-- Step equation: a stale fingerprint transforms afresh and overwrites. -/
theorem tas_fresh_stale (E : ServerEnv) (v : VFS) (cache : TransformCache)
    (f c t : Str) (entry : Str × Str)
    (hread : v.readFileSync? f = some c)
    (hc : assocGet cache f = some entry)
    (hstale : (entry.2 == simpleHash c) = false)
    (htrans : E.transformCode c f = .ok t) :
    transformAndServe E v cache f f =
      (transformFreshResponse t, assocSet cache f (t, simpleHash c)) := by
  simp [transformAndServe, hread, hc, hstale, htrans]

/-- The freshly-transformed response carries no `X-Cache` header. -/
theorem xcache_not_mem_fresh (val t : Str) :
    (strOf "X-Cache", val) ∉ (transformFreshResponse t).headers := by
  have h1 : strOf "X-Cache" ≠ strOf "Content-Type" := by decide
  have h2 : strOf "X-Cache" ≠ strOf "Content-Length" := by decide
  have h3 : strOf "X-Cache" ≠ strOf "Cache-Control" := by decide
  have h4 : strOf "X-Cache" ≠ strOf "X-Transformed" := by decide
  simp [transformFreshResponse, List.mem_cons, Prod.mk.injEq, h1, h2, h3,
    h4]

/-- The cache-served response carries `X-Cache: hit`. -/
theorem xcache_mem_hit (code : Str) :
    (strOf "X-Cache", strOf "hit") ∈ (transformHitResponse code).headers := by
  simp [transformHitResponse]

/-- C2 (amended): starting from any cache state, two consecutive
transform requests for a file with identical bytes return identical
output bodies and the second carries `X-Cache: hit`; after the bytes
change *to content whose source fingerprint differs*, the next response
does not carry that header (it re-transforms), and the one following it
does — provided the transformer succeeds on both contents. -/
theorem claim2_transform_cache (E : ServerEnv) (f c1 c2 t1 t2 : Str)
    (v1 v2 : VFS) (cache0 : TransformCache)
    (hread1 : v1.readFileSync? f = some c1)
    (hread2 : v2.readFileSync? f = some c2)
    (htrans1 : E.transformCode c1 f = .ok t1)
    (htrans2 : E.transformCode c2 f = .ok t2)
    (hne : simpleHash c1 ≠ simpleHash c2) :
    (transformAndServe E v1 (transformAndServe E v1 cache0 f f).2 f
          f).1.body =
        (transformAndServe E v1 cache0 f f).1.body ∧
    (strOf "X-Cache", strOf "hit") ∈
      (transformAndServe E v1 (transformAndServe E v1 cache0 f f).2 f
          f).1.headers ∧
    (∀ val, (strOf "X-Cache", val) ∉
      (transformAndServe E v2
          (transformAndServe E v1 (transformAndServe E v1 cache0 f f).2 f
            f).2 f f).1.headers) ∧
    ((strOf "X-Cache", strOf "hit") ∈
      (transformAndServe E v2
          (transformAndServe E v2
            (transformAndServe E v1 (transformAndServe E v1 cache0 f f).2 f
              f).2 f f).2 f f).1.headers) ∧
    (transformAndServe E v2
        (transformAndServe E v2
          (transformAndServe E v1 (transformAndServe E v1 cache0 f f).2 f
            f).2 f f).2 f f).1.body =
      (transformAndServe E v2
          (transformAndServe E v1 (transformAndServe E v1 cache0 f f).2 f
            f).2 f f).1.body := by
  have hbne : (simpleHash c1 == simpleHash c2) = false :=
    beq_eq_false_iff_ne.mpr hne
  cases hc0 : assocGet cache0 f with
  | none =>
    have e1 := tas_fresh_none E v1 cache0 f c1 t1 hread1 hc0 htrans1
    have e2 := tas_hit E v1 (assocSet cache0 f (t1, simpleHash c1)) f c1
      (t1, simpleHash c1) hread1 (assocGet_set_self cache0 f _)
      (beq_self_eq_true _)
    have e3 := tas_fresh_stale E v2 (assocSet cache0 f (t1, simpleHash c1))
      f c2 t2 (t1, simpleHash c1) hread2 (assocGet_set_self cache0 f _)
      hbne htrans2
    have e4 := tas_hit E v2
      (assocSet (assocSet cache0 f (t1, simpleHash c1)) f
        (t2, simpleHash c2)) f c2 (t2, simpleHash c2) hread2
      (assocGet_set_self _ f _) (beq_self_eq_true _)
    rw [e1]; dsimp only; rw [e2]; dsimp only; rw [e3]; dsimp only; rw [e4]
    exact ⟨rfl, xcache_mem_hit t1, fun val => xcache_not_mem_fresh val t2,
      xcache_mem_hit t2, rfl⟩
  | some entry =>
    by_cases hm : (entry.2 == simpleHash c1) = true
    · have hm2 : (entry.2 == simpleHash c2) = false := by
        rw [eq_of_beq hm]
        exact hbne
      have e1 := tas_hit E v1 cache0 f c1 entry hread1 hc0 hm
      have e3 := tas_fresh_stale E v2 cache0 f c2 t2 entry hread2 hc0 hm2
        htrans2
      have e4 := tas_hit E v2 (assocSet cache0 f (t2, simpleHash c2)) f c2
        (t2, simpleHash c2) hread2 (assocGet_set_self cache0 f _)
        (beq_self_eq_true _)
      rw [e1]; dsimp only; rw [e1]; dsimp only
      rw [e3]; dsimp only; rw [e4]
      exact ⟨rfl, xcache_mem_hit entry.1,
        fun val => xcache_not_mem_fresh val t2, xcache_mem_hit t2, rfl⟩
    · have hm' : (entry.2 == simpleHash c1) = false :=
        Bool.not_eq_true _ ▸ Bool.of_not_eq_true hm
      have e1 := tas_fresh_stale E v1 cache0 f c1 t1 entry hread1 hc0 hm'
        htrans1
      have e2 := tas_hit E v1 (assocSet cache0 f (t1, simpleHash c1)) f c1
        (t1, simpleHash c1) hread1 (assocGet_set_self cache0 f _)
        (beq_self_eq_true _)
      have e3 := tas_fresh_stale E v2 (assocSet cache0 f (t1, simpleHash c1))
        f c2 t2 (t1, simpleHash c1) hread2 (assocGet_set_self cache0 f _)
        hbne htrans2
      have e4 := tas_hit E v2
        (assocSet (assocSet cache0 f (t1, simpleHash c1)) f
          (t2, simpleHash c2)) f c2 (t2, simpleHash c2) hread2
        (assocGet_set_self _ f _) (beq_self_eq_true _)
      rw [e1]; dsimp only; rw [e2]; dsimp only; rw [e3]; dsimp only; rw [e4]
      exact ⟨rfl, xcache_mem_hit t1, fun val => xcache_not_mem_fresh val t2,
        xcache_mem_hit t2, rfl⟩

/-- VFS holding the pre-edit content `Aa`. -/
def vfsHashAa : VFS := ⟨[(strOf "/pages/x.tsx", strOf "Aa")]⟩

/-- VFS holding the post-edit content `BB` (same 32-bit fingerprint). -/
def vfsHashBB : VFS := ⟨[(strOf "/pages/x.tsx", strOf "BB")]⟩

/-- C2 counterexample: the claim as stated fails for an edit whose new
bytes collide with the old fingerprint — `Aa` and `BB` hash alike, so
after editing the file from `Aa` to `BB` the next transform response
still carries `X-Cache: hit` and serves the stale `Aa` output. -/
theorem claim2_transform_cache_counterexample :
    simpleHash (strOf "Aa") = simpleHash (strOf "BB") ∧
    strOf "Aa" ≠ strOf "BB" ∧
    (strOf "X-Cache", strOf "hit") ∈
      (transformAndServe trivialEnv vfsHashBB
          (transformAndServe trivialEnv vfsHashAa [] (strOf "/pages/x.tsx")
            (strOf "/pages/x.tsx")).2
          (strOf "/pages/x.tsx") (strOf "/pages/x.tsx")).1.headers ∧
    (transformAndServe trivialEnv vfsHashBB
        (transformAndServe trivialEnv vfsHashAa [] (strOf "/pages/x.tsx")
          (strOf "/pages/x.tsx")).2
        (strOf "/pages/x.tsx") (strOf "/pages/x.tsx")).1.body =
      strOf "Aa" := by
  decide

/-- VFS holding content `a` for the C2 witness. -/
def vfsHashA1 : VFS := ⟨[(strOf "/pages/w.tsx", strOf "a")]⟩

/-- VFS holding content `b` for the C2 witness. -/
def vfsHashB1 : VFS := ⟨[(strOf "/pages/w.tsx", strOf "b")]⟩

/-- Witness for the amended C2 at contents `a` and `b` (whose
fingerprints differ), starting from the empty cache. -/
theorem claim2_transform_cache_witness :
    simpleHash (strOf "a") ≠ simpleHash (strOf "b") ∧
    ((transformAndServe trivialEnv vfsHashA1
          (transformAndServe trivialEnv vfsHashA1 [] (strOf "/pages/w.tsx")
            (strOf "/pages/w.tsx")).2 (strOf "/pages/w.tsx")
          (strOf "/pages/w.tsx")).1.body =
        (transformAndServe trivialEnv vfsHashA1 [] (strOf "/pages/w.tsx")
          (strOf "/pages/w.tsx")).1.body ∧
      (strOf "X-Cache", strOf "hit") ∈
        (transformAndServe trivialEnv vfsHashA1
            (transformAndServe trivialEnv vfsHashA1 []
              (strOf "/pages/w.tsx") (strOf "/pages/w.tsx")).2
            (strOf "/pages/w.tsx") (strOf "/pages/w.tsx")).1.headers ∧
      (∀ val, (strOf "X-Cache", val) ∉
        (transformAndServe trivialEnv vfsHashB1
            (transformAndServe trivialEnv vfsHashA1
              (transformAndServe trivialEnv vfsHashA1 []
                (strOf "/pages/w.tsx") (strOf "/pages/w.tsx")).2
              (strOf "/pages/w.tsx") (strOf "/pages/w.tsx")).2
            (strOf "/pages/w.tsx") (strOf "/pages/w.tsx")).1.headers) ∧
      ((strOf "X-Cache", strOf "hit") ∈
        (transformAndServe trivialEnv vfsHashB1
            (transformAndServe trivialEnv vfsHashB1
              (transformAndServe trivialEnv vfsHashA1
                (transformAndServe trivialEnv vfsHashA1 []
                  (strOf "/pages/w.tsx") (strOf "/pages/w.tsx")).2
                (strOf "/pages/w.tsx") (strOf "/pages/w.tsx")).2
              (strOf "/pages/w.tsx") (strOf "/pages/w.tsx")).2
            (strOf "/pages/w.tsx") (strOf "/pages/w.tsx")).1.headers) ∧
      (transformAndServe trivialEnv vfsHashB1
          (transformAndServe trivialEnv vfsHashB1
            (transformAndServe trivialEnv vfsHashA1
              (transformAndServe trivialEnv vfsHashA1 []
                (strOf "/pages/w.tsx") (strOf "/pages/w.tsx")).2
              (strOf "/pages/w.tsx") (strOf "/pages/w.tsx")).2
            (strOf "/pages/w.tsx") (strOf "/pages/w.tsx")).2
          (strOf "/pages/w.tsx") (strOf "/pages/w.tsx")).1.body =
        (transformAndServe trivialEnv vfsHashB1
            (transformAndServe trivialEnv vfsHashA1
              (transformAndServe trivialEnv vfsHashA1 []
                (strOf "/pages/w.tsx") (strOf "/pages/w.tsx")).2
              (strOf "/pages/w.tsx") (strOf "/pages/w.tsx")).2
            (strOf "/pages/w.tsx") (strOf "/pages/w.tsx")).1.body) :=
  ⟨by decide,
   claim2_transform_cache trivialEnv (strOf "/pages/w.tsx") (strOf "a")
     (strOf "b") (strOf "a") (strOf "b") vfsHashA1 vfsHashB1 []
     (by decide) (by decide) (by rfl) (by rfl) (by decide)⟩

/-! ## C4: streaming callback ordering -/

/-- Whether an event is an `onChunk`. -/
def isChunkEv : StreamEv → Bool
  | .chunk _ => true
  | _ => false

/-- Tail check of a well-ordered trace: zero or more chunks closed by one
final `onEnd`. -/
def wellOrderedGo : List StreamEv → Bool
  | [.ende] => true
  | .chunk _ :: rest => wellOrderedGo rest
  | _ => false

/-- A callback trace satisfying the claim: `onStart` exactly once and
first (hence before every chunk), then only `onChunk` events, closed by
`onEnd` exactly once and last (hence after every chunk). -/
def wellOrderedTrace : List StreamEv → Bool
  | .start _ _ _ :: rest => wellOrderedGo rest
  | _ => false

/-- Whether a mock-response call ends the response (`json`, `send`,
`end`, `redirect` all call `markEnded`). -/
def endsCall : ResCall → Bool
  | .json _ => true
  | .send _ _ => true
  | .endC _ => true
  | .redirectNum _ _ => true
  | .redirectUrl _ => true
  | _ => false

/-- A handler is end-respecting when it makes no further `res` calls
after its first ending call. -/
def noCallsAfterEnd : List ResCall → Bool
  | [] => true
  | c :: rest => if endsCall c then rest.isEmpty else noCallsAfterEnd rest

/-- Invariant of streaming-response states reachable before the response
has ended: either nothing was emitted and headers are unsent, or headers
went out first and everything since has been a chunk. -/
def sresInv (st : SRes) : Prop :=
  (st.headersSent = false ∧ st.ended = false ∧ st.events = []) ∨
  (st.headersSent = true ∧ st.ended = false ∧
    ∃ sc sm hs cs, st.events = .start sc sm hs :: cs ∧
      cs.all isChunkEv = true)

/-- Appending one more chunk keeps a trace all-chunks. -/
theorem all_chunk_append (cs : List StreamEv) (d : Str)
    (h : cs.all isChunkEv = true) :
    (cs ++ [StreamEv.chunk d]).all isChunkEv = true := by
  rw [List.all_append, h]
  rfl

/-- Chunks followed by the closing `onEnd` pass the tail check. -/
theorem wellOrderedGo_chunks (cs : List StreamEv)
    (h : cs.all isChunkEv = true) :
    wellOrderedGo (cs ++ [.ende]) = true := by
  induction cs with
  | nil => rfl
  | cons c rest ih =>
    have hc : isChunkEv c = true ∧ rest.all isChunkEv = true := by
      simpa using h
    cases c with
    | chunk d => exact (by simpa [wellOrderedGo] using ih hc.2)
    | start sc sm hs => simp [isChunkEv] at hc
    | ende => simp [isChunkEv] at hc

/-- Chunks, one more chunk, then the closing `onEnd` pass the tail
check. -/
theorem wellOrderedGo_chunks_snoc (cs : List StreamEv) (d : Str)
    (h : cs.all isChunkEv = true) :
    wellOrderedGo (cs ++ [.chunk d, .ende]) = true := by
  have hres := wellOrderedGo_chunks (cs ++ [.chunk d])
    (all_chunk_append cs d h)
  rwa [List.append_assoc] at hres

/-- A non-ending call preserves the pre-end invariant. -/
theorem sresStep_inv (st : SRes) (c : ResCall) (hP : sresInv st)
    (hc : endsCall c = false) : sresInv (sresStep st c) := by
  cases c with
  | status code =>
    rcases hP with ⟨h1, h2, h3⟩ | ⟨h1, h2, h3⟩
    · exact Or.inl ⟨h1, h2, h3⟩
    · exact Or.inr ⟨h1, h2, h3⟩
  | setHeaderC name value =>
    rcases hP with ⟨h1, h2, h3⟩ | ⟨h1, h2, h3⟩
    · exact Or.inl ⟨h1, h2, h3⟩
    · exact Or.inr ⟨h1, h2, h3⟩
  | write chunk =>
    rcases hP with ⟨h1, h2, h3⟩ | ⟨h1, h2, ⟨sc, sm, hs, cs, hev, hall⟩⟩
    · refine Or.inr ?_
      refine ⟨by simp [sresStep, sendHeadersS, h1],
        by simp [sresStep, sendHeadersS, h1, h2], ?_⟩
      refine ⟨st.statusCode, st.statusMessage, st.headers, [.chunk chunk],
        ?_, rfl⟩
      simp [sresStep, sendHeadersS, h1, h3]
    · refine Or.inr ?_
      refine ⟨by simp [sresStep, sendHeadersS, h1],
        by simp [sresStep, sendHeadersS, h1, h2], ?_⟩
      refine ⟨sc, sm, hs, cs ++ [.chunk chunk], ?_,
        all_chunk_append cs chunk hall⟩
      simp [sresStep, sendHeadersS, h1, hev]
  | json data => simp [endsCall] at hc
  | send data isObj => simp [endsCall] at hc
  | endC data => simp [endsCall] at hc
  | redirectNum code url => simp [endsCall] at hc
  | redirectUrl url => simp [endsCall] at hc

/-- An ending call from a pre-end state ends the response with a
well-ordered trace. -/
theorem sresStep_ends (st : SRes) (c : ResCall) (hP : sresInv st)
    (hc : endsCall c = true) :
    (sresStep st c).ended = true ∧
      wellOrderedTrace (sresStep st c).events = true := by
  rcases hP with ⟨h1, h2, h3⟩ | ⟨h1, h2, ⟨sc, sm, hs, cs, hev, hall⟩⟩
  · cases c with
    | status code => simp [endsCall] at hc
    | setHeaderC name value => simp [endsCall] at hc
    | write chunk => simp [endsCall] at hc
    | json data =>
      constructor
      · simp [sresStep, sendHeadersS, markEndedS, h1, h2, h3]
      · simp [sresStep, sendHeadersS, markEndedS, h1, h2, h3,
          wellOrderedTrace, wellOrderedGo]
    | send data isObj =>
      cases isObj with
      | true =>
        constructor
        · simp [sresStep, sendHeadersS, markEndedS, h1, h2, h3]
        · simp [sresStep, sendHeadersS, markEndedS, h1, h2, h3,
            wellOrderedTrace, wellOrderedGo]
      | false =>
        constructor
        · simp [sresStep, sendHeadersS, markEndedS, h1, h2, h3]
        · simp [sresStep, sendHeadersS, markEndedS, h1, h2, h3,
            wellOrderedTrace, wellOrderedGo]
    | endC data =>
      cases data with
      | some d =>
        constructor
        · simp [sresStep, sendHeadersS, markEndedS, h1, h2, h3]
        · simp [sresStep, sendHeadersS, markEndedS, h1, h2, h3,
            wellOrderedTrace, wellOrderedGo]
      | none =>
        constructor
        · simp [sresStep, sendHeadersS, markEndedS, h1, h2, h3]
        · simp [sresStep, sendHeadersS, markEndedS, h1, h2, h3,
            wellOrderedTrace, wellOrderedGo]
    | redirectNum code url =>
      constructor
      · simp [sresStep, sendHeadersS, markEndedS, h1, h2, h3]
      · simp [sresStep, sendHeadersS, markEndedS, h1, h2, h3,
          wellOrderedTrace, wellOrderedGo]
    | redirectUrl url =>
      constructor
      · simp [sresStep, sendHeadersS, markEndedS, h1, h2, h3]
      · simp [sresStep, sendHeadersS, markEndedS, h1, h2, h3,
          wellOrderedTrace, wellOrderedGo]
  · cases c with
    | status code => simp [endsCall] at hc
    | setHeaderC name value => simp [endsCall] at hc
    | write chunk => simp [endsCall] at hc
    | json data =>
      constructor
      · simp [sresStep, sendHeadersS, markEndedS, h1, h2]
      · simp [sresStep, sendHeadersS, markEndedS, h1, h2, hev,
          wellOrderedTrace]
        simpa using wellOrderedGo_chunks_snoc cs data hall
    | send data isObj =>
      cases isObj with
      | true =>
        constructor
        · simp [sresStep, sendHeadersS, markEndedS, h1, h2]
        · simp [sresStep, sendHeadersS, markEndedS, h1, h2, hev,
            wellOrderedTrace]
          simpa using wellOrderedGo_chunks_snoc cs data hall
      | false =>
        constructor
        · simp [sresStep, sendHeadersS, markEndedS, h1, h2]
        · simp [sresStep, sendHeadersS, markEndedS, h1, h2, hev,
            wellOrderedTrace]
          simpa using wellOrderedGo_chunks_snoc cs data hall
    | endC data =>
      cases data with
      | some d =>
        constructor
        · simp [sresStep, sendHeadersS, markEndedS, h1, h2]
        · simp [sresStep, sendHeadersS, markEndedS, h1, h2, hev,
            wellOrderedTrace]
          simpa using wellOrderedGo_chunks_snoc cs d hall
      | none =>
        constructor
        · simp [sresStep, markEndedS, sendHeadersS, h1, h2]
        · simp [sresStep, markEndedS, sendHeadersS, h1, h2, hev,
            wellOrderedTrace]
          simpa using wellOrderedGo_chunks cs hall
    | redirectNum code url =>
      constructor
      · simp [sresStep, markEndedS, sendHeadersS, h1, h2]
      · simp [sresStep, markEndedS, sendHeadersS, h1, h2, hev,
          wellOrderedTrace]
        simpa using wellOrderedGo_chunks cs hall
    | redirectUrl url =>
      constructor
      · simp [sresStep, markEndedS, sendHeadersS, h1, h2]
      · simp [sresStep, markEndedS, sendHeadersS, h1, h2, hev,
          wellOrderedTrace]
        simpa using wellOrderedGo_chunks cs hall

/-- An end-respecting call sequence that ends the response produces a
well-ordered callback trace from any pre-end state. -/
theorem runSRes_wellOrdered (calls : List ResCall) :
    ∀ st : SRes, sresInv st → noCallsAfterEnd calls = true →
      (calls.foldl sresStep st).ended = true →
      wellOrderedTrace (calls.foldl sresStep st).events = true := by
  induction calls with
  | nil =>
    intro st hP _ hend
    rcases hP with ⟨_, h2, _⟩ | ⟨_, h2, _⟩ <;>
      simp only [List.foldl_nil] at hend <;> rw [hend] at h2 <;> cases h2
  | cons c cs ih =>
    intro st hP hno hend
    by_cases hc : endsCall c = true
    · have hcs : cs = [] := by
        unfold noCallsAfterEnd at hno
        rw [hc] at hno
        simpa [List.isEmpty_iff] using hno
      subst hcs
      simpa using (sresStep_ends st c hP hc).2
    · have hc' : endsCall c = false := by
        cases h : endsCall c
        · rfl
        · exact absurd h hc
      have hno' : noCallsAfterEnd cs = true := by
        unfold noCallsAfterEnd at hno
        rwa [hc', if_neg (by simp)] at hno
      exact ih (sresStep st c) (sresStep_inv st c hP hc') hno'
        (by simpa using hend)

/-- C4 (amended): for every streaming invocation — including all the
error paths — the emitted callback trace is `onStart` exactly once and
before the first `onChunk`, then chunks, then `onEnd` exactly once and
after the last `onChunk`, provided the handler is end-respecting: it
makes no response calls after ending the response, and it only throws or
fails to end the response when it has not yet emitted any output. -/
theorem claim4_streaming_callbacks (E : ServerEnv) (cfg : ServerConfig)
    (v : VFS) (method pathname : Str) (headers : List (Str × Str))
    (body : Option Str)
    (hbeh : ∀ code req,
      noCallsAfterEnd (E.apiHandlerBehavior code req).calls = true ∧
      (((E.apiHandlerBehavior code req).thrown ≠ none ∨
          (runSRes (E.apiHandlerBehavior code req).calls).ended = false) →
        (runSRes (E.apiHandlerBehavior code req).calls).events = [])) :
    wellOrderedTrace
      (handleStreamingRequest E cfg v method pathname headers body) =
        true := by
  unfold handleStreamingRequest
  split
  · rfl
  · split
    · rfl
    · rename_i apiFile _
      split
      · rfl
      · rename_i code _
        split
        · rfl
        · rename_i transformed _
          split
          · rfl
          · rename_i req _
            dsimp only
            obtain ⟨hno, hempty⟩ := hbeh transformed req
            cases hth : (E.apiHandlerBehavior transformed req).thrown with
            | some msg =>
              rw [hempty (Or.inl (by rw [hth]; simp))]
              rfl
            | none =>
              show wellOrderedTrace
                (if (runSRes
                    (E.apiHandlerBehavior transformed req).calls).ended =
                      true then
                  (runSRes (E.apiHandlerBehavior transformed req).calls).events
                else
                  (runSRes
                    (E.apiHandlerBehavior transformed req).calls).events ++
                    streamErrorEvents (strOf "API handler timeout")) = true
              by_cases hend :
                  (runSRes (E.apiHandlerBehavior transformed req).calls).ended
                    = true
              · rw [if_pos hend]
                exact runSRes_wellOrdered _ _ (Or.inl ⟨rfl, rfl, rfl⟩) hno
                  hend
              · have hend' :
                    (runSRes
                      (E.apiHandlerBehavior transformed req).calls).ended =
                      false := by
                  cases h : (runSRes
                      (E.apiHandlerBehavior transformed req).calls).ended
                  · rfl
                  · exact absurd h hend
                rw [if_neg (by rw [hend']; simp)]
                rw [hempty (Or.inr hend')]
                rfl

/-- Environment whose handler calls `res.end()` and then `res.write('A')`
(a call after the response has ended). -/
def envEndThenWrite : ServerEnv :=
  { trivialEnv with
    apiHandlerBehavior := fun _ _ =>
      { calls := [.endC none, .write (strOf "A")], thrown := none } }

/-- C4 counterexample: for the handler `res.end(); res.write('A')` the
streaming dispatch emits `onStart`, then `onEnd`, then `onChunk('A')` —
an `onChunk` after `onEnd`, violating the claim as stated. -/
theorem claim4_streaming_callbacks_counterexample :
    handleStreamingRequest envEndThenWrite cfgPages vfsApiHello
        (strOf "GET") (strOf "/api/hello") [] none =
      [.start 200 (strOf "OK") [], .ende, .chunk (strOf "A")] ∧
    wellOrderedTrace
      (handleStreamingRequest envEndThenWrite cfgPages vfsApiHello
        (strOf "GET") (strOf "/api/hello") [] none) = false := by
  decide

/-- Environment whose handler streams `res.write('A'); res.write('B');
res.end('C')` (the spec's streaming scenario). -/
def envWriteWriteEnd : ServerEnv :=
  { trivialEnv with
    apiHandlerBehavior := fun _ _ =>
      { calls := [.write (strOf "A"), .write (strOf "B"),
          .endC (some (strOf "C"))], thrown := none } }

/-- Witness for the amended C4 at the handler
`res.write('A'); res.write('B'); res.end('C')`. -/
theorem claim4_streaming_callbacks_witness :
    wellOrderedTrace
      (handleStreamingRequest envWriteWriteEnd cfgPages vfsApiHello
        (strOf "GET") (strOf "/api/hello") [] none) = true := by
  have hbeh : ∀ code req,
      noCallsAfterEnd
          (envWriteWriteEnd.apiHandlerBehavior code req).calls = true ∧
        (((envWriteWriteEnd.apiHandlerBehavior code req).thrown ≠ none ∨
            (runSRes
              (envWriteWriteEnd.apiHandlerBehavior code req).calls).ended =
              false) →
          (runSRes
            (envWriteWriteEnd.apiHandlerBehavior code req).calls).events =
            []) := by
    intro code req
    refine ⟨?_, ?_⟩
    · show noCallsAfterEnd [ResCall.write (strOf "A"),
        ResCall.write (strOf "B"), ResCall.endC (some (strOf "C"))] = true
      decide
    · intro h
      refine absurd h ?_
      show ¬((none : Option Str) ≠ none ∨
        (runSRes [ResCall.write (strOf "A"), ResCall.write (strOf "B"),
          ResCall.endC (some (strOf "C"))]).ended = false)
      decide
  exact claim4_streaming_callbacks envWriteWriteEnd cfgPages vfsApiHello
    (strOf "GET") (strOf "/api/hello") [] none hbeh

/-! ## C3: environment-variable isolation in HTML -/

/-- Inserting a fresh key appends it. -/
theorem assocSet_fresh {α : Type} (acc : List (Str × α)) (k : Str) (v : α)
    (h : ∀ kv ∈ acc, kv.1 ≠ k) : assocSet acc k v = acc ++ [(k, v)] := by
  induction acc with
  | nil => rfl
  | cons hd tl ih =>
    have hne : (hd.1 == k) = false :=
      beq_eq_false_iff_ne.mpr (h hd (List.mem_cons_self hd tl))
    simp only [assocSet, hne, Bool.false_eq_true, if_false, List.cons_append,
      List.cons.injEq, true_and]
    exact ih (fun kv hkv => h kv (List.mem_cons_of_mem hd hkv))

/-- Folding object assignment over a key-distinct list appends it. -/
theorem foldl_assocSet_append {α : Type} (l : List (Str × α)) :
    ∀ acc : List (Str × α), (l.map Prod.fst).Nodup →
      (∀ kv ∈ acc, ∀ kv2 ∈ l, kv.1 ≠ kv2.1) →
      l.foldl (fun a kv => assocSet a kv.1 kv.2) acc = acc ++ l := by
  induction l with
  | nil => intro acc _ _; simp
  | cons hd tl ih =>
    intro acc hnd hdisj
    have hstep : assocSet acc hd.1 hd.2 = acc ++ [hd] := by
      have := assocSet_fresh acc hd.1 hd.2
        (fun kv hkv => hdisj kv hkv hd (List.mem_cons_self hd tl))
      simpa using this
    have hnd' : (tl.map Prod.fst).Nodup := (List.nodup_cons.mp hnd).2
    have hhd : hd.1 ∉ tl.map Prod.fst := (List.nodup_cons.mp hnd).1
    have hdisj' : ∀ kv ∈ acc ++ [hd], ∀ kv2 ∈ tl, kv.1 ≠ kv2.1 := by
      intro kv hkv kv2 hkv2
      rcases List.mem_append.mp hkv with hacc | hone
      · exact hdisj kv hacc kv2 (List.mem_cons_of_mem hd hkv2)
      · have : kv = hd := by simpa using hone
        subst this
        intro heq
        exact hhd (heq ▸ List.mem_map_of_mem Prod.fst hkv2)
    calc (hd :: tl).foldl (fun a kv => assocSet a kv.1 kv.2) acc
        = tl.foldl (fun a kv => assocSet a kv.1 kv.2) (assocSet acc hd.1 hd.2) := by
          simp [List.foldl_cons]
      _ = tl.foldl (fun a kv => assocSet a kv.1 kv.2) (acc ++ [hd]) := by
          rw [hstep]
      _ = (acc ++ [hd]) ++ tl := ih (acc ++ [hd]) hnd' hdisj'
      _ = acc ++ (hd :: tl) := by simp

/-- A guarded fold is the fold over the filtered list. -/
theorem foldl_guard_filter {α β : Type} (p : α → Bool) (f : β → α → β)
    (l : List α) : ∀ acc : β,
      l.foldl (fun a x => if p x then f a x else a) acc =
        (l.filter p).foldl f acc := by
  induction l with
  | nil => intro acc; rfl
  | cons hd tl ih =>
    intro acc
    by_cases h : p hd
    · simp [List.foldl_cons, List.filter_cons, h, ih]
    · simp [List.foldl_cons, List.filter_cons, h, ih]

/-- With distinct keys the env-script object is exactly the public
sublist. -/
theorem publicEnvVars_eq_filter (env : List (Str × Str))
    (hnd : (env.map Prod.fst).Nodup) :
    publicEnvVars env = env.filter (fun kv => isPublicKey kv.1) := by
  unfold publicEnvVars
  rw [foldl_guard_filter (fun kv => isPublicKey kv.1)
    (fun a kv => assocSet a kv.1 kv.2) env]
  have hsub : ((env.filter (fun kv => isPublicKey kv.1)).map Prod.fst).Nodup :=
    List.Nodup.sublist
      (List.Sublist.map Prod.fst (List.filter_sublist env)) hnd
  have := foldl_assocSet_append (env.filter (fun kv => isPublicKey kv.1))
    [] hsub (by intro kv hkv; cases hkv)
  simpa using this

/-- C3: (a) under distinct env keys, the entries of the `process.env`
object written into the env-injection script are exactly the env entries
whose key starts with `NEXT_PUBLIC_`; (b) two env maps agreeing on all
their public entries produce byte-identical page-route responses (both
router modes, including 404 fallbacks), so a non-public entry can never
influence — or appear in — any HTML body. -/
theorem claim3_env_isolation :
    (∀ env : List (Str × Str), (env.map Prod.fst).Nodup →
      ∀ k val : Str,
        ((k, val) ∈ publicEnvVars env ↔
          ((k, val) ∈ env ∧ isPublicKey k = true))) ∧
    (∀ (E : ServerEnv) (cfg : ServerConfig) (env1 env2 : List (Str × Str))
        (v : VFS) (cache : TransformCache) (pathname search : Str),
      env1.filter (fun kv => isPublicKey kv.1) =
          env2.filter (fun kv => isPublicKey kv.1) →
        handlePageRoute E cfg env1 v cache pathname search =
          handlePageRoute E cfg env2 v cache pathname search) := by
  constructor
  · intro env hnd k val
    rw [publicEnvVars_eq_filter env hnd]
    simp [List.mem_filter]
  · intro E cfg env1 env2 v cache pathname search hfilter
    have hpub : publicEnvVars env1 = publicEnvVars env2 := by
      unfold publicEnvVars
      rw [foldl_guard_filter, foldl_guard_filter, hfilter]
    have hscript : ∀ bp : Str,
        generateEnvScript env1 bp = generateEnvScript env2 bp := by
      intro bp
      unfold generateEnvScript
      rw [hpub]
    have hpage : ∀ pf pn : Str,
        generatePageHtml E cfg env1 v pf pn =
          generatePageHtml E cfg env2 v pf pn := by
      intro pf pn
      unfold generatePageHtml
      rw [hscript]
    have happ : ∀ (route : AppRoute) (pn : Str),
        generateAppRouterHtml E cfg env1 v route pn =
          generateAppRouterHtml E cfg env2 v route pn := by
      intro route pn
      unfold generateAppRouterHtml
      rw [hscript]
    unfold handlePageRoute handleAppRouterPage
    simp only [hpage, happ]

/-- Env map of the C3 witness (one public, one secret entry). -/
def envWithSecret : List (Str × Str) :=
  [(strOf "NEXT_PUBLIC_A", strOf "x"), (strOf "SECRET", strOf "s")]

/-- Env map of the C3 witness with the secret removed. -/
def envPublicOnly : List (Str × Str) :=
  [(strOf "NEXT_PUBLIC_A", strOf "x")]

/-- Witness for C3: with env `{NEXT_PUBLIC_A: "x", SECRET: "s"}` the
script object contains `NEXT_PUBLIC_A` and not `SECRET`, and dropping the
secret entirely leaves every page-route response unchanged. -/
theorem claim3_env_isolation_witness :
    ((strOf "NEXT_PUBLIC_A", strOf "x") ∈ publicEnvVars envWithSecret ∧
      ¬((strOf "SECRET", strOf "s") ∈ publicEnvVars envWithSecret)) ∧
    handlePageRoute trivialEnv cfgPages envWithSecret
        (⟨[(strOf "/pages/index.jsx", strOf "page")]⟩ : VFS) []
        (strOf "/") [] =
      handlePageRoute trivialEnv cfgPages envPublicOnly
        (⟨[(strOf "/pages/index.jsx", strOf "page")]⟩ : VFS) []
        (strOf "/") [] := by
  constructor
  · constructor
    · exact ((claim3_env_isolation.1 envWithSecret (by decide)
        (strOf "NEXT_PUBLIC_A") (strOf "x")).mpr (by decide))
    · intro hmem
      have := (claim3_env_isolation.1 envWithSecret (by decide)
        (strOf "SECRET") (strOf "s")).mp hmem
      exact absurd this.2 (by decide)
  · exact claim3_env_isolation.2 trivialEnv cfgPages envWithSecret
      envPublicOnly _ [] (strOf "/") [] (by decide)

/-! ## C1: prefix stripping is transparent -/

/-- A list is a `isPrefixOf` of itself followed by anything. -/
theorem isPrefixOf_append_self (l1 l2 : Str) :
    l1.isPrefixOf (l1 ++ l2) = true := by
  rw [List.isPrefixOf_iff_prefix]
  exact List.prefix_append l1 l2

/-- `takeWhile` over an append stops exactly at the boundary when the
left part satisfies the predicate and the right part opens with a
violation. -/
theorem takeWhile_append_all (p : Char → Bool) (l1 l2 : Str)
    (h1 : l1.all p = true)
    (h2 : ∀ c, l2.head? = some c → p c = false) :
    (l1 ++ l2).takeWhile p = l1 := by
  induction l1 with
  | nil =>
    cases l2 with
    | nil => rfl
    | cons c t => simp [List.takeWhile_cons, h2 c rfl]
  | cons a t ih =>
    have ha : p a = true ∧ t.all p = true := by simpa using h1
    simp [List.takeWhile_cons, ha.1, ih ha.2]

/-- A list with a head is not empty (as `isEmpty`). -/
theorem isEmpty_false_of_head (P : Str) (c : Char)
    (hP : P.head? = some c) : P.isEmpty = false := by
  cases P with
  | nil => cases hP
  | cons a t => rfl

/-- Stripping the virtual prefix from `/__virtual__/<digits><P>` yields
`P` whenever `P` opens with `/`. -/
theorem stripVirtualPfx_prepend (ds P : Str) (hne : ds ≠ [])
    (hdig : ds.all Char.isDigit = true) (hP : P.head? = some '/') :
    stripVirtualPfx (strOf "/__virtual__/" ++ ds ++ P) = P := by
  have hpre : (strOf "/__virtual__/").isPrefixOf
      (strOf "/__virtual__/" ++ ds ++ P) = true := by
    rw [List.append_assoc]
    exact isPrefixOf_append_self _ _
  have hdrop : (strOf "/__virtual__/" ++ ds ++ P).drop
      (strOf "/__virtual__/").length = ds ++ P := by
    rw [List.append_assoc]
    exact List.drop_left _ _
  have htake : (ds ++ P).takeWhile Char.isDigit = ds :=
    takeWhile_append_all Char.isDigit ds P hdig
      (by intro c hc; rw [hP] at hc; cases hc; decide)
  have hdsne : ds.isEmpty = false := by
    cases ds with
    | nil => exact absurd rfl hne
    | cons a t => rfl
  have hdrop2 : (ds ++ P).drop ds.length = P := List.drop_left _ _
  have hPne : P.isEmpty = false := isEmpty_false_of_head P '/' hP
  unfold stripVirtualPfx
  simp only [hpre, if_true, hdrop, htake, hdsne, Bool.false_eq_true,
    if_false, hdrop2, hPne]

/-- Stripping the asset prefix from `<assetPrefix><P>` yields `P` when
`P` opens with a single `/`. -/
theorem stripAssetPfx_prepend (a P : Str) (ha : a ≠ [])
    (hP : P.head? = some '/') (hP2 : (strOf "//").isPrefixOf P = false) :
    stripAssetPfx a (a ++ P) = P := by
  have hane : a.isEmpty = false := by
    cases a with
    | nil => exact absurd rfl ha
    | cons x t => rfl
  have hpre : a.isPrefixOf (a ++ P) = true := isPrefixOf_append_self a P
  have hdrop : (a ++ P).drop a.length = P := List.drop_left a P
  have hPne : P.isEmpty = false := isEmpty_false_of_head P '/' hP
  unfold stripAssetPfx
  simp only [hane, hpre, Bool.not_false, Bool.true_and, if_true, hdrop,
    hPne, Bool.false_eq_true, if_false, hP, Option.some.injEq, beq_self_eq_true,
    Bool.false_or, Bool.or_true, hP2]

/-- Stripping the asset prefix from the concatenation-born double-slash
form `<assetPrefix>/<P>` also yields `P`. -/
theorem stripAssetPfx_prepend_slash (a P : Str) (ha : a ≠ [])
    (hP : P.head? = some '/') :
    stripAssetPfx a (a ++ strOf "/" ++ P) = P := by
  obtain ⟨t, rfl⟩ : ∃ t, P = '/' :: t := by
    cases P with
    | nil => cases hP
    | cons c rest =>
      refine ⟨rest, ?_⟩
      have : c = '/' := by simpa using hP
      rw [this]
  have hane : a.isEmpty = false := by
    cases a with
    | nil => exact absurd rfl ha
    | cons x t => rfl
  have hpre : a.isPrefixOf (a ++ strOf "/" ++ ('/' :: t)) = true := by
    rw [List.append_assoc]
    exact isPrefixOf_append_self _ _
  have hdrop : (a ++ strOf "/" ++ ('/' :: t)).drop a.length =
      '/' :: '/' :: t := by
    rw [List.append_assoc]
    exact List.drop_left _ _
  unfold stripAssetPfx
  simp only [hane, hpre, Bool.not_false, Bool.true_and, if_true, hdrop]
  simp [List.isPrefixOf, strOf]

/-- Stripping the base path from `<basePath><P>` yields `P` when `P`
opens with `/`. -/
theorem stripBasePathFn_prepend (b P : Str) (hb : b ≠ [])
    (hP : P.head? = some '/') : stripBasePathFn b (b ++ P) = P := by
  have hbne : b.isEmpty = false := by
    cases b with
    | nil => exact absurd rfl hb
    | cons x t => rfl
  have hpre : b.isPrefixOf (b ++ P) = true := isPrefixOf_append_self b P
  have hdrop : (b ++ P).drop b.length = P := List.drop_left b P
  have hPne : P.isEmpty = false := isEmpty_false_of_head P '/' hP
  unfold stripBasePathFn
  simp [hbne, hpre, hdrop, hPne, hP]

/-- C1 (amended): prefix stripping is transparent for every path `P`
that is not itself subject to stripping.  Four cases: the virtual prefix
`/__virtual__/<digits>`, the configured asset prefix (plain and
double-slash concatenation forms), and the configured base path; in each,
the response (method, headers, body and cache state included) equals the
response for `P` alone, provided `P` opens with a single `/` and the
strip chain leaves `P` (and, for the later strips, the still-prefixed
path) unchanged. -/
theorem claim1_prefix_transparency :
    (∀ (E : ServerEnv) (cfg : ServerConfig) (envv : List (Str × Str))
        (v : VFS) (cache : TransformCache) (method ds P search : Str)
        (headers : List (Str × Str)) (body : Option Str),
      ds ≠ [] → ds.all Char.isDigit = true → P.head? = some '/' →
      stripVirtualPfx P = P →
      handleRequest E cfg envv v cache method
          (strOf "/__virtual__/" ++ ds ++ P) search headers body =
        handleRequest E cfg envv v cache method P search headers body) ∧
    (∀ (E : ServerEnv) (cfg : ServerConfig) (envv : List (Str × Str))
        (v : VFS) (cache : TransformCache) (method P search : Str)
        (headers : List (Str × Str)) (body : Option Str),
      cfg.assetPfx ≠ [] → P.head? = some '/' →
      (strOf "//").isPrefixOf P = false →
      stripVirtualPfx (cfg.assetPfx ++ P) = cfg.assetPfx ++ P →
      stripVirtualPfx P = P →
      stripAssetPfx cfg.assetPfx P = P →
      handleRequest E cfg envv v cache method (cfg.assetPfx ++ P) search
          headers body =
        handleRequest E cfg envv v cache method P search headers body) ∧
    (∀ (E : ServerEnv) (cfg : ServerConfig) (envv : List (Str × Str))
        (v : VFS) (cache : TransformCache) (method P search : Str)
        (headers : List (Str × Str)) (body : Option Str),
      cfg.assetPfx ≠ [] → P.head? = some '/' →
      stripVirtualPfx (cfg.assetPfx ++ strOf "/" ++ P) =
        cfg.assetPfx ++ strOf "/" ++ P →
      stripVirtualPfx P = P →
      stripAssetPfx cfg.assetPfx P = P →
      handleRequest E cfg envv v cache method
          (cfg.assetPfx ++ strOf "/" ++ P) search headers body =
        handleRequest E cfg envv v cache method P search headers body) ∧
    (∀ (E : ServerEnv) (cfg : ServerConfig) (envv : List (Str × Str))
        (v : VFS) (cache : TransformCache) (method P search : Str)
        (headers : List (Str × Str)) (body : Option Str),
      cfg.basePath ≠ [] → P.head? = some '/' →
      stripVirtualPfx (cfg.basePath ++ P) = cfg.basePath ++ P →
      stripVirtualPfx P = P →
      stripAssetPfx cfg.assetPfx (cfg.basePath ++ P) = cfg.basePath ++ P →
      stripAssetPfx cfg.assetPfx P = P →
      stripBasePathFn cfg.basePath P = P →
      handleRequest E cfg envv v cache method (cfg.basePath ++ P) search
          headers body =
        handleRequest E cfg envv v cache method P search headers body) := by
  refine ⟨?_, ?_, ?_, ?_⟩
  · intro E cfg envv v cache method ds P search headers body hne hdig hP hv
    simp only [handleRequest]
    rw [stripVirtualPfx_prepend ds P hne hdig hP, hv]
  · intro E cfg envv v cache method P search headers body ha hP hP2 hnv1
      hnv2 hna
    simp only [handleRequest]
    rw [hnv1, hnv2, stripAssetPfx_prepend cfg.assetPfx P ha hP hP2, hna]
  · intro E cfg envv v cache method P search headers body ha hP hnv1 hnv2
      hna
    simp only [handleRequest]
    rw [hnv1, hnv2, stripAssetPfx_prepend_slash cfg.assetPfx P ha hP, hna]
  · intro E cfg envv v cache method P search headers body hb hP hnv1 hnv2
      hna1 hna2 hnb
    simp only [handleRequest]
    rw [hnv1, hnv2, hna1, hna2,
      stripBasePathFn_prepend cfg.basePath P hb hP, hnb]

/-- Pages-mode configuration with base path `/d`. -/
def cfgBaseD : ServerConfig :=
  { port := 3001, pagesDir := strOf "/pages", appDir := strOf "/app",
    publicDir := strOf "/public", useAppRouter := false, assetPfx := [],
    basePath := strOf "/d" }

/-- VFS of the C1 counterexample: only `/pages/d/x.jsx` exists. -/
def vfsBaseD : VFS := ⟨[(strOf "/pages/d/x.jsx", strOf "page")]⟩

/-- C1 counterexample: with `basePath = "/d"`, the path `/d/d/x` is the
base path prepended to `P = /d/x`, yet its response (200, the page
`/pages/d/x.jsx`) differs from the response for `/d/x` alone (404: the
request is stripped a second time to `/x`, which resolves nowhere) — the
claim as stated fails for a `P` that itself begins with a strippable
prefix. -/
theorem claim1_prefix_transparency_counterexample :
    strOf "/d/d/x" = cfgBaseD.basePath ++ strOf "/d/x" ∧
    (handleRequest trivialEnv cfgBaseD [] vfsBaseD [] (strOf "GET")
        (strOf "/d/d/x") [] [] none).1.statusCode = 200 ∧
    (handleRequest trivialEnv cfgBaseD [] vfsBaseD [] (strOf "GET")
        (strOf "/d/x") [] [] none).1.statusCode = 404 := by
  decide

/-- Witness for the amended C1, virtual-prefix case: the response for
`/__virtual__/3001/about` equals the response for `/about`. -/
theorem claim1_prefix_transparency_witness :
    stripVirtualPfx (strOf "/about") = strOf "/about" ∧
    handleRequest trivialEnv cfgPages []
        (⟨[(strOf "/pages/about.jsx", strOf "page")]⟩ : VFS) []
        (strOf "GET") (strOf "/__virtual__/" ++ strOf "3001" ++
          strOf "/about") [] [] none =
      handleRequest trivialEnv cfgPages []
        (⟨[(strOf "/pages/about.jsx", strOf "page")]⟩ : VFS) []
        (strOf "GET") (strOf "/about") [] [] none :=
  ⟨by decide,
   claim1_prefix_transparency.1 trivialEnv cfgPages []
     (⟨[(strOf "/pages/about.jsx", strOf "page")]⟩ : VFS) []
     (strOf "GET") (strOf "3001") (strOf "/about") [] [] none
     (by decide) (by decide) (by decide) (by decide)⟩

end NDS
